import Mathlib

/-!
Verification development for the `job_agent` repository.

The Python sources are shallowly embedded: strings are modelled as
`List Char`, dictionaries as association lists, raised exceptions as
`Except`/`Option` results, and machine-level details (UTF-8, SHA-256)
are implemented directly over `Nat`.  Every definition mirrors a
specific function of the repository; the doc comment of each definition
names the source location it embeds.
-/

namespace JobAgent

/-- ASCII model of Python `str.lower` on a single character
(`"A"`..`"Z"` map to `"a"`..`"z"`, everything else is fixed). -/
def pyLowerChar (c : Char) : Char :=
  if 65 ≤ c.toNat ∧ c.toNat ≤ 90 then Char.ofNat (c.toNat + 32) else c

/-- Python `str.lower` over a whole string (ASCII model). -/
def pyLower (l : List Char) : List Char := l.map pyLowerChar

/-- Python whitespace characters stripped by `str.strip()` (ASCII model). -/
def isPyWs (c : Char) : Bool :=
  c = ' ' ∨ c = '\t' ∨ c = '\n' ∨ c = '\x0b' ∨ c = '\x0c' ∨ c = '\r'

/-- Python `str.strip()` with no argument. -/
def pyStrip (l : List Char) : List Char :=
  ((l.dropWhile isPyWs).reverse.dropWhile isPyWs).reverse

/-- Python `haystack.index(needle)` / `str.find`: index of the first
occurrence of `needle`, if any. -/
def firstIndexOf : List Char → List Char → Option Nat
  | [], ph => if ph.isPrefixOf [] then some 0 else none
  | c :: t, ph =>
      if ph.isPrefixOf (c :: t) then some 0
      else (firstIndexOf t ph).map (· + 1)

/-- Occurrence test: Python `needle in haystack` for strings. -/
def listContains (haystack needle : List Char) : Bool :=
  (firstIndexOf haystack needle).isSome

/-- Python `haystack.find(c)` for a single character: index of the first
occurrence, or none. -/
def findChar (c : Char) (l : List Char) : Option Nat :=
  let pre := l.takeWhile (fun d => d ≠ c)
  if pre.length < l.length then some pre.length else none

/-! ## URL normalization (`src/services/status_service.py`, lines 59-76)

`StatusService.normalize_job_url` / `normalize_base_url` are built on
Python's `urllib.parse.urlparse`.  The model below reproduces the parts
of `urlsplit` these functions consume: scheme detection (a leading
run of scheme characters before the first `":"`, starting with a
letter, lowercased), netloc extraction after a leading `"//"` (up to
the first `"/"`, `"?"` or `"#"`), and the path (what remains before
any fragment or query). -/

/-- Characters allowed in a URL scheme by `urllib.parse`
(letters, digits, `"+"`, `"-"`, `"."`). -/
def schemeChar (c : Char) : Bool :=
  c.isAlpha || c.isDigit || c = '+' || c = '-' || c = '.'

/-- Characters that end the netloc portion of a URL. -/
def urlDelim (c : Char) : Bool := c = '/' || c = '?' || c = '#'

/-- Scheme splitting of `urllib.parse.urlsplit`: if the text before the
first `":"` is a nonempty run of scheme characters starting with a
letter, it is removed and returned lowercased. -/
def splitScheme (l : List Char) : List Char × List Char :=
  let pre := l.takeWhile (fun d => d ≠ ':')
  if pre.length < l.length ∧ pre ≠ [] ∧
      (l.head?.elim false Char.isAlpha) ∧ pre.all schemeChar then
    (pyLower pre, l.drop (pre.length + 1))
  else
    ([], l)

/-- Netloc splitting of `urllib.parse.urlsplit`: after a leading `"//"`,
the netloc extends to the first `"/"`, `"?"` or `"#"`. -/
def splitNetloc (l : List Char) : List Char × List Char :=
  match l with
  | a :: b :: rest =>
      if a = '/' ∧ b = '/' then
        (rest.takeWhile (fun c => !(urlDelim c)), rest.dropWhile (fun c => !(urlDelim c)))
      else ([], l)
  | _ => ([], l)

/-- The components of `urllib.parse.urlparse` used by the status
service (query and fragment are dropped by the normalizers). -/
structure UrlParts where
  scheme : List Char
  netloc : List Char
  path : List Char
deriving Repr, DecidableEq

/-- Model of `urllib.parse.urlparse` restricted to scheme, netloc and
path (fragment and query are split off and discarded). -/
def urlparse (l : List Char) : UrlParts :=
  ⟨(splitScheme l).1,
   (splitNetloc (splitScheme l).2).1,
   (((splitNetloc (splitScheme l).2).2.takeWhile (fun c => c ≠ '#')).takeWhile
     (fun c => c ≠ '?'))⟩

/-- Python `path.rstrip("/")`: remove every trailing `"/"`. -/
def rstripSlash (l : List Char) : List Char :=
  (l.reverse.dropWhile (fun c => c = '/')).reverse

/-- `StatusService.normalize_job_url` (`status_service.py` lines 59-67):
keep scheme (default `"https"`), lowercase the host, strip any trailing
slash from the path, drop query and fragment; return the raw input
unchanged when no netloc is recognised. -/
def normalize_job_url (l : List Char) : List Char :=
  if (urlparse l).netloc = [] then l
  else
    (if (urlparse l).scheme = [] then "https".data else (urlparse l).scheme)
      ++ "://".data ++ pyLower (urlparse l).netloc ++ rstripSlash (urlparse l).path

/-- `StatusService.normalize_base_url` (`status_service.py` lines 69-76):
keep only scheme (default `"https"`) and lowercased host. -/
def normalize_base_url (l : List Char) : List Char :=
  if (urlparse l).netloc = [] then l
  else
    (if (urlparse l).scheme = [] then "https".data else (urlparse l).scheme)
      ++ "://".data ++ pyLower (urlparse l).netloc

/-! ## Job content hash (`src/api/server.py`, lines 522-526)

`_derive_job_hash` feeds
`f"{normalized_job_url}::{snippet}".encode("utf-8")` to
`hashlib.sha256(...).hexdigest()`, where
`snippet = (job_description or "")[:200].strip()`.  SHA-256 is
implemented below directly from FIPS 180-4 over `Nat` with explicit
reduction mod `2^32`. -/

/-- Truncation to a 32-bit word. -/
def w32 (n : Nat) : Nat := n % 4294967296

/-- Right rotation of a 32-bit word by `k`. -/
def rotr (k x : Nat) : Nat := w32 ((x >>> k) ||| (x <<< (32 - k)))

/-- SHA-256 `Ch` function. -/
def shaCh (x y z : Nat) : Nat := (x &&& y) ^^^ ((x ^^^ 0xffffffff) &&& z)

/-- SHA-256 `Maj` function. -/
def shaMaj (x y z : Nat) : Nat := (x &&& y) ^^^ (x &&& z) ^^^ (y &&& z)

/-- SHA-256 `Σ0`. -/
def bigSigma0 (x : Nat) : Nat := rotr 2 x ^^^ rotr 13 x ^^^ rotr 22 x

/-- SHA-256 `Σ1`. -/
def bigSigma1 (x : Nat) : Nat := rotr 6 x ^^^ rotr 11 x ^^^ rotr 25 x

/-- SHA-256 `σ0`. -/
def smallSigma0 (x : Nat) : Nat := rotr 7 x ^^^ rotr 18 x ^^^ (x >>> 3)

/-- SHA-256 `σ1`. -/
def smallSigma1 (x : Nat) : Nat := rotr 17 x ^^^ rotr 19 x ^^^ (x >>> 10)

/-- SHA-256 round constants (fractional parts of the cube roots of the
first 64 primes). -/
def shaK : List Nat := [
  0x428A2F98, 0x71374491, 0xB5C0FBCF, 0xE9B5DBA5,
  0x3956C25B, 0x59F111F1, 0x923F82A4, 0xAB1C5ED5,
  0xD807AA98, 0x12835B01, 0x243185BE, 0x550C7DC3,
  0x72BE5D74, 0x80DEB1FE, 0x9BDC06A7, 0xC19BF174,
  0xE49B69C1, 0xEFBE4786, 0x0FC19DC6, 0x240CA1CC,
  0x2DE92C6F, 0x4A7484AA, 0x5CB0A9DC, 0x76F988DA,
  0x983E5152, 0xA831C66D, 0xB00327C8, 0xBF597FC7,
  0xC6E00BF3, 0xD5A79147, 0x06CA6351, 0x14292967,
  0x27B70A85, 0x2E1B2138, 0x4D2C6DFC, 0x53380D13,
  0x650A7354, 0x766A0ABB, 0x81C2C92E, 0x92722C85,
  0xA2BFE8A1, 0xA81A664B, 0xC24B8B70, 0xC76C51A3,
  0xD192E819, 0xD6990624, 0xF40E3585, 0x106AA070,
  0x19A4C116, 0x1E376C08, 0x2748774C, 0x34B0BCB5,
  0x391C0CB3, 0x4ED8AA4A, 0x5B9CCA4F, 0x682E6FF3,
  0x748F82EE, 0x78A5636F, 0x84C87814, 0x8CC70208,
  0x90BEFFFA, 0xA4506CEB, 0xBEF9A3F7, 0xC67178F2]

/-- SHA-256 initial hash state. -/
def shaH0 : List Nat := [
  0x6A09E667, 0xBB67AE85, 0x3C6EF372, 0xA54FF53A,
  0x510E527F, 0x9B05688C, 0x1F83D9AB, 0x5BE0CD19]

/-- One message-schedule extension step. -/
def extendStep (ws : List Nat) : List Nat :=
  ws ++ [w32 (smallSigma1 (ws.getD (ws.length - 2) 0) + ws.getD (ws.length - 7) 0
    + smallSigma0 (ws.getD (ws.length - 15) 0) + ws.getD (ws.length - 16) 0)]

/-- The 64-entry message schedule of one block. -/
def buildW (block : List Nat) : List Nat := extendStep^[48] block

/-- One SHA-256 compression round. -/
def shaRound (st : List Nat) (kw : Nat × Nat) : List Nat :=
  match st with
  | [a, b, c, d, e, f, g, h] =>
      let t1 := h + bigSigma1 e + shaCh e f g + kw.1 + kw.2
      let t2 := bigSigma0 a + shaMaj a b c
      [w32 (t1 + t2), a, b, c, w32 (d + t1), e, f, g]
  | _ => st

/-- SHA-256 compression of one 16-word block into the running state. -/
def compressBlock (h : List Nat) (block : List Nat) : List Nat :=
  let st := ((shaK.zip (buildW block)).foldl shaRound h)
  List.zipWith (fun x y => w32 (x + y)) h st

/-- Merkle-Damgard padding of a byte message (length in bits, big endian). -/
def shaPad (msg : List Nat) : List Nat :=
  let ml := msg.length
  let zeros := (119 - ml % 64) % 64
  msg ++ [0x80] ++ List.replicate zeros 0
    ++ (List.range 8).map (fun i => ((8 * ml) >>> (8 * (7 - i))) &&& 0xff)

/-- Big-endian packing of bytes into 32-bit words. -/
def bytesToWords : List Nat → List Nat
  | b1 :: b2 :: b3 :: b4 :: t => (((b1 * 256 + b2) * 256 + b3) * 256 + b4) :: bytesToWords t
  | _ => []

/-- Split a word list into 16-word blocks (a padded message always
splits evenly; a ragged tail would become a final short block). -/
def chunk16 : List Nat → List (List Nat)
  | a1 :: a2 :: a3 :: a4 :: a5 :: a6 :: a7 :: a8 ::
    a9 :: a10 :: a11 :: a12 :: a13 :: a14 :: a15 :: a16 :: t =>
      [a1, a2, a3, a4, a5, a6, a7, a8, a9, a10, a11, a12, a13, a14, a15, a16] :: chunk16 t
  | [] => []
  | l => [l]

/-- SHA-256 of a byte string, as eight 32-bit words. -/
def sha256Words (msg : List Nat) : List Nat :=
  (chunk16 (bytesToWords (shaPad msg))).foldl compressBlock shaH0

/-- Lower-case hex digit. -/
def hexDigit (n : Nat) : Char :=
  if n < 10 then Char.ofNat (48 + n) else Char.ofNat (87 + n)

/-- Eight hex digits of one 32-bit word. -/
def wordToHex (w : Nat) : List Char :=
  (List.range 8).map (fun i => hexDigit ((w >>> (4 * (7 - i))) &&& 15))

/-- `hashlib.sha256(bytes).hexdigest()`. -/
def sha256HexOfBytes (msg : List Nat) : List Char :=
  ((sha256Words msg).map wordToHex).flatten

/-- UTF-8 encoding of one character. -/
def utf8Char (c : Char) : List Nat :=
  let n := c.toNat
  if n < 0x80 then [n]
  else if n < 0x800 then [0xC0 + n / 64, 0x80 + n % 64]
  else if n < 0x10000 then [0xE0 + n / 4096, 0x80 + (n / 64) % 64, 0x80 + n % 64]
  else [0xF0 + n / 262144, 0x80 + (n / 4096) % 64, 0x80 + (n / 64) % 64, 0x80 + n % 64]

/-- Python `str.encode("utf-8")`. -/
def utf8 (l : List Char) : List Nat := (l.map utf8Char).flatten

/-- `_derive_job_hash` (`server.py` lines 522-526) with the default
`snippet_length = 200`: hex SHA-256 of
`normalized_job_url ++ "::" ++ snippet`, `snippet` being the first 200
characters of the description, then stripped. -/
def derive_job_hash (job_url job_description : List Char) : List Char :=
  sha256HexOfBytes (utf8 (normalize_job_url job_url ++ "::".data
    ++ pyStrip (job_description.take 200)))

/-! ## Status service (`src/services/status_service.py`) and repository
(`src/services/status_repository.py`)

`StatusService` keeps an in-memory cache (`_store`, `_job_index`,
`_hash_index`, `_order`) in front of a `StatusRepository`.  Every public
operation first runs `_evict_locked`, whose final line calls
`self._repository.evict_older_than(...)`.  The embedding models Python
attribute lookup on the repository through the list of method names the
class actually defines, so a call to an undefined method is an
`AttributeError`. -/

/-- Values stored in a snapshot's free-form metadata map. -/
inductive MVal where
  | str (s : List Char)
  | bool (b : Bool)
  | num (n : Int)
deriving Repr, DecidableEq

/-- A metadata map (Python dict with insertion order). -/
def Metadata := List (List Char × MVal)
deriving instance Repr, DecidableEq for Metadata

/-- Python `d[k] = v`: overwrite in place, else append. -/
def dictSet {V : Type} (m : List (List Char × V)) (k : List Char) (v : V) :
    List (List Char × V) :=
  match m with
  | [] => [(k, v)]
  | (k0, v0) :: t => if k0 = k then (k, v) :: t else (k0, v0) :: dictSet t k v

/-- Python `d.get(k)`. -/
def dictGet {V : Type} (m : List (List Char × V)) (k : List Char) : Option V :=
  (m.find? (fun p => p.1 = k)).map Prod.snd

/-- Python `d.pop(k, None)` (the removal part). -/
def dictRemove {V : Type} (m : List (List Char × V)) (k : List Char) :
    List (List Char × V) :=
  m.filter (fun p => p.1 ≠ k)

/-- Python `d.update(other)`: shallow per-key overwrite. -/
def dictUpdate {V : Type} (m other : List (List Char × V)) : List (List Char × V) :=
  other.foldl (fun acc p => dictSet acc p.1 p.2) m

/-- Python `d.setdefault(k, v)`. -/
def dictSetdefault {V : Type} (m : List (List Char × V)) (k : List Char) (v : V) :
    List (List Char × V) :=
  match dictGet m k with
  | some _ => m
  | none => dictSet m k v

/-- Truthiness of an optional string argument (`if not x`). -/
def truthyOptS : Option (List Char) → Bool
  | some s => s ≠ []
  | none => false

/-- In-memory status snapshot (`status_service.py` lines 15-40). -/
structure Snapshot where
  status_id : List Char
  job_url : List Char
  base_url : List Char
  status : List Char
  step : List Char
  message : List Char
  resume_url : List Char
  metadata : Metadata
  updated_at : Nat
deriving Repr, DecidableEq

/-- The method names the `StatusRepository` class defines
(`status_repository.py` lines 21-157): note there is no
`evict_older_than` among them. -/
def statusRepositoryMethods : List String :=
  ["__init__", "create_schema", "session_scope", "upsert", "get_by_status_id",
   "get_by_job_url", "get_by_base_url", "get_by_hash", "list_recent",
   "mark_applied", "_model_to_snapshot", "_deserialize_metadata"]

/-- Python exceptions surfaced by the embedded service. -/
inductive PyErr where
  | attributeError (msg : String)
  | valueError (msg : String)
deriving Repr, DecidableEq

/-- The `AttributeError` raised by `self._repository.evict_older_than(...)`. -/
def evictAttrErr : PyErr :=
  .attributeError "StatusRepository object has no attribute evict_older_than"

/-- The whole mutable state of a `StatusService` instance plus the rows
of its repository (keyed by `status_id`). -/
structure ServiceState where
  ttl_seconds : Nat
  store : List (List Char × Snapshot)
  job_index : List (List Char × List Char)
  hash_index : List (List Char × List Char)
  order : List (List Char)
  repo : List (List Char × Snapshot)
deriving Repr, DecidableEq

/-- A fresh `StatusService()` over an empty database. -/
def initialService : ServiceState := ⟨3600, [], [], [], [], []⟩

/-- The in-memory part of `_evict_locked` for one expired key
(`status_service.py` lines 277-285). -/
def evictOne (st : ServiceState) (key : List Char) : ServiceState :=
  match dictGet st.store key with
  | none => st
  | some snap =>
      { st with
        store := dictRemove st.store key
        job_index := dictRemove st.job_index snap.job_url
        hash_index :=
          match dictGet snap.metadata "job_hash".data with
          | some (MVal.str h) =>
              if h ≠ [] ∧ dictGet st.hash_index h = some key then
                dictRemove st.hash_index h
              else st.hash_index
          | _ => st.hash_index
        order := st.order.erase key }

/-- `StatusService._evict_locked` (`status_service.py` lines 270-286):
drop expired cache entries, then call the repository's
`evict_older_than` — a method the repository does not define, so the
call raises `AttributeError`. -/
def evict_locked (now : Nat) (st : ServiceState) : Except PyErr ServiceState :=
  let expired := (st.store.filter
    (fun p => st.ttl_seconds < now - p.2.updated_at)).map Prod.fst
  let st1 := expired.foldl evictOne st
  if statusRepositoryMethods.contains "evict_older_than" then .ok st1
  else .error evictAttrErr

/-- `StatusService._touch_order` (`status_service.py` lines 293-296). -/
def touch_order (st : ServiceState) (key : List Char) : ServiceState :=
  { st with order := st.order.erase key ++ [key] }

/-- `StatusService._index_hash` (`status_service.py` lines 288-291). -/
def index_hash (st : ServiceState) (snap : Snapshot) : ServiceState :=
  match dictGet snap.metadata "job_hash".data with
  | some (MVal.str h) =>
      if h ≠ [] then { st with hash_index := dictSet st.hash_index h snap.status_id }
      else st
  | _ => st

/-- `StatusService._cache_snapshot_locked` (`status_service.py`
lines 298-302). -/
def cache_snapshot (st : ServiceState) (snap : Snapshot) : ServiceState :=
  let st := { st with
    store := dictSet st.store snap.status_id snap
    job_index := dictSet st.job_index snap.job_url snap.status_id }
  touch_order (index_hash st snap) snap.status_id

/-- `StatusService._build_snapshot` (`status_service.py`
lines 242-268). -/
def build_snapshot (status_id job_url status step message resume_url : List Char)
    (metadata : Option Metadata) (job_hash : Option (List Char)) (now : Nat) :
    Snapshot :=
  let md := metadata.getD []
  let md := match job_hash with
    | some h => if h ≠ [] then dictSetdefault md "job_hash".data (.str h) else md
    | none => md
  ⟨status_id, normalize_job_url job_url, normalize_base_url job_url,
    status, step, message, resume_url, md, now⟩

/-- `StatusService._lookup_locked` (`status_service.py`
lines 304-331): by `status_id` in the cache, then by normalized
`job_url` through the job index, then newest-first scan by `base_url`. -/
def lookup_locked (st : ServiceState)
    (status_id job_url base_url : Option (List Char)) : Option Snapshot :=
  let byId := match status_id with
    | some sid => if sid ≠ [] then dictGet st.store sid else none
    | none => none
  match byId with
  | some s => some s
  | none =>
      let byUrl := match job_url with
        | some u =>
            if u ≠ [] then
              match dictGet st.job_index (normalize_job_url u) with
              | some sid => dictGet st.store sid
              | none => none
            else none
        | none => none
      match byUrl with
      | some s => some s
      | none =>
          match base_url with
          | some b =>
              if b ≠ [] then
                (st.order.reverse.filterMap (fun sid => dictGet st.store sid)).find?
                  (fun s => s.base_url = normalize_base_url b)
              else none
          | none => none

/-- `StatusRepository.upsert` on the embedded row store. -/
def repoUpsert (st : ServiceState) (snap : Snapshot) : ServiceState :=
  { st with repo := dictSet st.repo snap.status_id snap }

/-- `StatusRepository.get_by_job_url`: most recently updated row with
the given (already normalized) job URL. -/
def repoGetByJobUrl (repo : List (List Char × Snapshot)) (u : List Char) :
    Option Snapshot :=
  ((repo.map Prod.snd).filter (fun s => s.job_url = u)).foldl
    (fun acc s => match acc with
      | none => some s
      | some b => if b.updated_at < s.updated_at then some s else some b) none

/-- `StatusRepository.get_by_base_url`: most recently updated row with
the given base URL. -/
def repoGetByBaseUrl (repo : List (List Char × Snapshot)) (b : List Char) :
    Option Snapshot :=
  ((repo.map Prod.snd).filter (fun s => s.base_url = b)).foldl
    (fun acc s => match acc with
      | none => some s
      | some r => if r.updated_at < s.updated_at then some s else some r) none

/-- `StatusService.create_status` (`status_service.py` lines 78-104):
build a snapshot under a fresh id, persist it, then (inside the lock)
run eviction and cache it.  The eviction call raises. -/
def create_status (now : Nat) (newId : List Char) (st : ServiceState)
    (job_url status step message : List Char)
    (metadata : Option Metadata) (job_hash : Option (List Char)) :
    Except PyErr (ServiceState × Snapshot) := do
  let snap := build_snapshot newId job_url status step message [] metadata job_hash now
  let st := repoUpsert st snap
  let st ← evict_locked now st
  .ok (cache_snapshot st snap, snap)

/-- `StatusService.update_status` (`status_service.py` lines 106-165):
require an identifier, evict (raises), locate by id then normalized
URL, create on miss when a `job_url` was given, otherwise merge
metadata per key, set `applied`/`job_hash`, refresh `updated_at`, and
persist. -/
def update_status (now : Nat) (newId : List Char) (st : ServiceState)
    (status_id job_url : Option (List Char)) (status step message resume_url : List Char)
    (metadata : Option Metadata) (applied : Option Bool)
    (job_hash : Option (List Char)) :
    Except PyErr (ServiceState × Option Snapshot) := do
  if truthyOptS status_id = false ∧ truthyOptS job_url = false then
    throw (.valueError "Either status_id or job_url is required to update status")
  let st ← evict_locked now st
  match lookup_locked st status_id job_url none with
  | none =>
      if truthyOptS job_url then
        let u := job_url.getD []
        let sid := match status_id with
          | some s => if s ≠ [] then s else newId
          | none => newId
        let snap := build_snapshot sid u status step message resume_url metadata job_hash now
        let st := repoUpsert st snap
        .ok (cache_snapshot st snap, some snap)
      else
        .ok (st, none)
  | some snap =>
      let md := match metadata with
        | some m => dictUpdate snap.metadata m
        | none => snap.metadata
      let md := match applied with
        | some a => dictSet md "applied".data (.bool a)
        | none => md
      let hashTruthy := truthyOptS job_hash
      let md := match job_hash with
        | some h => if h ≠ [] then dictSet md "job_hash".data (.str h) else md
        | none => md
      let snap1 := { snap with
        status := status, step := step, message := message,
        resume_url := resume_url, metadata := md, updated_at := now }
      let st := { st with
        store := dictSet st.store snap1.status_id snap1
        hash_index :=
          if hashTruthy then dictSet st.hash_index (job_hash.getD []) snap1.status_id
          else st.hash_index }
      let st := touch_order st snap1.status_id
      let st := repoUpsert st snap1
      .ok (st, some snap1)

/-- `StatusService.get_status` (`status_service.py` lines 167-195):
evict (raises), then cache lookup, then repository fallbacks. -/
def get_status (now : Nat) (st : ServiceState)
    (status_id job_url base_url : Option (List Char)) :
    Except PyErr (ServiceState × Option Snapshot) := do
  let st ← evict_locked now st
  match lookup_locked st status_id job_url base_url with
  | some s => .ok (st, some s)
  | none =>
      let fromRepo :=
        match status_id with
        | some sid => dictGet st.repo sid
        | none => none
      let fromRepo := match fromRepo with
        | some s => some s
        | none => match job_url with
            | some u => repoGetByJobUrl st.repo (normalize_job_url u)
            | none => none
      let fromRepo := match fromRepo with
        | some s => some s
        | none => match base_url with
            | some b => repoGetByBaseUrl st.repo (normalize_base_url b)
            | none => none
      match fromRepo with
      | some s => .ok (cache_snapshot st s, some s)
      | none => .ok (st, none)

/-- Whether a repository row counts as applied
(`metadata["applied"]` truthy). -/
def snapApplied (s : Snapshot) : Bool :=
  match dictGet s.metadata "applied".data with
  | some (MVal.bool b) => b
  | some (MVal.str v) => v ≠ []
  | some (MVal.num n) => n ≠ 0
  | none => false

/-- `StatusRepository.list_recent`: newest first, optionally dropping
applied rows. -/
def repoListRecent (repo : List (List Char × Snapshot)) (include_applied : Bool) :
    List Snapshot :=
  let rows := (repo.map Prod.snd).filter
    (fun s => include_applied || !(snapApplied s))
  (rows.mergeSort (fun a b => b.updated_at ≤ a.updated_at))

/-- `StatusService.list_all` (`status_service.py` lines 215-221):
query the repository, then evict (raises) and cache the results. -/
def list_all (now : Nat) (st : ServiceState) (include_applied : Bool) :
    Except PyErr (ServiceState × List Snapshot) := do
  let snaps := repoListRecent st.repo include_applied
  let st ← evict_locked now st
  .ok (snaps.foldl cache_snapshot st, snaps)

/-- `StatusService.mark_applied` (`status_service.py` lines 223-240):
evict (raises), toggle the cached snapshot's `applied` flag or fall
back to the repository. -/
def mark_applied (now : Nat) (st : ServiceState) (status_id : List Char)
    (applied : Bool) : Except PyErr (ServiceState × Option Snapshot) := do
  let st ← evict_locked now st
  match dictGet st.store status_id with
  | some snap =>
      let snap1 := { snap with
        metadata := dictSet snap.metadata "applied".data (.bool applied)
        updated_at := now }
      let st := { st with store := dictSet st.store status_id snap1 }
      let st := touch_order st status_id
      let st := repoUpsert st snap1
      .ok (st, some snap1)
  | none =>
      match dictGet st.repo status_id with
      | some row =>
          let row1 := { row with
            metadata := dictSet row.metadata "applied".data (.bool applied)
            updated_at := now }
          let st := repoUpsert st row1
          .ok (cache_snapshot st row1, some row1)
      | none => .ok (st, none)

/-! ## Data-model declarations (`src/agents/state.py`)

The module's top-level class definitions and the declared keys of the
`AgentState` `TypedDict` are transcribed verbatim so that claims about
what the data model declares can be settled by membership. -/

/-- The class names `src/agents/state.py` defines at top level. -/
def statePyClasses : List String :=
  ["JobMetadata", "AnalyzedRequirements", "ValidationResult", "AgentState"]

/-- The slots declared by the `AgentState` `TypedDict`
(`state.py` lines 96-118). -/
def agentStateFields : List String :=
  ["job_description", "job_metadata", "base_resume_pointers",
   "analyzed_requirements", "resume_sections", "validation_result",
   "generated_doc_path", "resume_url", "retry_count", "error_message", "status"]

/-- The names `src/services/screening_service.py` line 11 imports from
`src.agents.state`. -/
def screeningServiceStateImports : List String := ["ScreeningResult"]

/-- Model of `from module import name`: the import succeeds only when
the module defines the name. -/
def importsResolve (defined requested : List String) : Bool :=
  requested.all (fun n => defined.contains n)

/-! ## Workflow orchestration (`src/graph/workflow.py`, `src/agents/`)

The LangGraph graph of `create_workflow` is embedded as a step
function over the node set, driven by an environment that supplies the
outcome of each external call (screening model, Drive listing, LLM
analysis/rewrite/validation, upload).  A raised exception inside a
stage is an `Except.error`; every node converts it into
`status = "failed"` exactly as the source does.  Status recording
(`_record_status`) only acts when the state carries a `status_id` and
is modelled as a no-op (runs without a `status_id`).  The runner counts
how often the resume-writing, document-generation and validation nodes
execute. -/

/-- The nodes of the compiled graph (`workflow.py` lines 569-575),
plus the `END` sentinel. -/
inductive WNode where
  | initial_screening
  | load_pointers
  | analyze_jd
  | write_resume
  | generate_doc
  | validate_complete
  | increment_retry
  | terminal
deriving Repr, DecidableEq

/-- The `AgentState` slots that the orchestration reads or routes on. -/
structure WState where
  job_description : List Char
  job_metadata : Metadata
  base_resume_pointers : Option (List Char)
  analyzed_requirements : Option Metadata
  resume_sections : Option Metadata
  generated_doc_path : List Char
  resume_url : List Char
  retry_count : Nat
  error_message : List Char
  status : List Char
deriving Repr, DecidableEq

/-- The initial state built by `/generate-resume`
(`server.py` lines 112-126). -/
def initialWState (job_description : List Char) (job_metadata : Metadata) : WState :=
  ⟨job_description, job_metadata, none, none, none, [], [], 0, [], "processing".data⟩

/-- Truthiness of an optional dict slot (`if not analyzed_requirements`). -/
def truthyOptMeta : Option Metadata → Bool
  | some m => m ≠ []
  | none => false

/-- Screening outcome consumed by `initial_screening_node`. -/
structure ScreenOut where
  clean_job_description : List Char
  sponsorship_status : List Char
  block_application : Bool
  block_reasons : List (List Char)
deriving Repr, DecidableEq

/-- Validation outcome consumed by `validate_complete_resume_node`. -/
structure ValidationOut where
  is_valid : Bool
deriving Repr, DecidableEq

/-- Outcomes of every external call a workflow run makes.  The
per-attempt functions are indexed by the `retry_count` current when
the stage runs. -/
structure WorkflowEnv where
  screen : Except (List Char) ScreenOut
  pointer_files : Except (List Char) (List (List Char))
  file_content : List Char
  analyze : Except (List Char) (Metadata × Metadata)
  write : Nat → Except (List Char) Metadata
  generate : Nat → Except (List Char) (List Char)
  validate : Nat → Except (List Char) ValidationOut
  upload : Nat → Except (List Char) (List Char)

/-- Python `"; ".join(reasons)`. -/
def joinSemicolon (rs : List (List Char)) : List Char :=
  List.intercalate "; ".data rs

/-- `initial_screening_node` (`workflow.py` lines 19-93): clean the
description (falling back to the original when blank), overwrite
`sponsorship` with the screening result when non-empty, and block or
continue. -/
def initial_screening_node (env : WorkflowEnv) (st : WState) : WState :=
  match env.screen with
  | .error e =>
      { st with error_message := "Screening failed: ".data ++ e,
                status := "failed".data }
  | .ok sc =>
      let cleaned :=
        if pyStrip sc.clean_job_description ≠ [] then pyStrip sc.clean_job_description
        else st.job_description
      let md :=
        if sc.sponsorship_status ≠ [] then
          dictSet st.job_metadata "sponsorship".data (.str sc.sponsorship_status)
        else st.job_metadata
      if sc.block_application then
        let reason :=
          if joinSemicolon sc.block_reasons ≠ [] then joinSemicolon sc.block_reasons
          else "Screening blocked due to identified issues.".data
        { st with job_description := cleaned, job_metadata := md,
                  status := "screening_blocked".data, error_message := reason }
      else
        { st with job_description := cleaned, job_metadata := md,
                  status := "screened".data }

/-- `should_continue_after_screening` (`workflow.py` lines 94-102). -/
def route_after_screening (st : WState) : List Char :=
  if st.status = "failed".data ∨ st.status = "screening_blocked".data then "end".data
  else "continue".data

/-- `load_pointers_node` (`workflow.py` lines 137-212): fail when no
pointer file is listed, otherwise load the first file's content. -/
def load_pointers_node (env : WorkflowEnv) (st : WState) : WState :=
  match env.pointer_files with
  | .error e =>
      { st with base_resume_pointers := none,
                error_message := "Failed to load pointers: ".data ++ e,
                status := "failed".data }
  | .ok files =>
      if files = [] then
        { st with base_resume_pointers := none,
                  error_message := "No pointer files found".data,
                  status := "failed".data }
      else
        { st with base_resume_pointers := some env.file_content,
                  status := "pointers_loaded".data }

/-- `should_continue_after_load` (`workflow.py` lines 463-484). -/
def route_after_load (st : WState) : List Char :=
  if st.status = "failed".data then "end".data
  else if truthyOptS st.base_resume_pointers = false then "end".data
  else "continue".data

/-- `analyze_jd_node` (`src/agents/jd_analyzer.py` lines 35-109):
one combined LLM call returning metadata and requirements. -/
def analyze_jd_node (env : WorkflowEnv) (st : WState) : WState :=
  match env.analyze with
  | .error e =>
      { st with error_message := "JD analysis failed: ".data ++ e,
                status := "failed".data }
  | .ok mr =>
      { st with job_metadata := mr.1, analyzed_requirements := some mr.2,
                status := "analyzed".data }

/-- The sponsorship value `should_continue_after_analyze` reads:
`job_metadata.get("sponsorship", "Not Specified")`. -/
def sponsorshipOf (st : WState) : List Char :=
  match dictGet st.job_metadata "sponsorship".data with
  | some (MVal.str s) => s
  | some _ => []
  | none => "Not Specified".data

/-- `should_continue_after_analyze` (`workflow.py` lines 487-530):
end on failure or missing requirements; end with
`status = "no_sponsorship"` and an error message when the trimmed,
lowercased sponsorship equals `"no"`; otherwise continue.  The router
mutates the state, so it returns the route together with the state. -/
def route_after_analyze (st : WState) : List Char × WState :=
  if st.status = "failed".data then ("end".data, st)
  else if truthyOptMeta st.analyzed_requirements = false then ("end".data, st)
  else
    let sponsorship := sponsorshipOf st
    if sponsorship ≠ [] ∧ pyLower (pyStrip sponsorship) = "no".data then
      ("end".data,
        { st with status := "no_sponsorship".data,
                  error_message :=
                    "This position does not offer H1B visa sponsorship".data })
    else ("continue".data, st)

/-- `write_resume_node` (`src/agents/resume_writer.py` lines 12-85). -/
def write_resume_node (env : WorkflowEnv) (st : WState) : WState :=
  match env.write st.retry_count with
  | .error e =>
      { st with error_message := "Resume writing failed: ".data ++ e,
                status := "failed".data }
  | .ok secs =>
      { st with resume_sections := some secs, status := "written".data }

/-- `should_continue_after_write` (`workflow.py` lines 533-554). -/
def route_after_write (st : WState) : List Char :=
  if st.status = "failed".data then "end".data
  else if truthyOptMeta st.resume_sections = false then "end".data
  else "continue".data

/-- `generate_document_node` (`workflow.py` lines 215-272). -/
def generate_document_node (env : WorkflowEnv) (st : WState) : WState :=
  match env.generate st.retry_count with
  | .error e =>
      { st with error_message := "Document generation failed: ".data ++ e,
                status := "failed".data }
  | .ok p =>
      { st with generated_doc_path := p, status := "generated".data }

/-- `validate_complete_resume_node` (`workflow.py` lines 275-409):
upload and complete when the result is valid or
`retry_count >= VALIDATION_RETRIES`; otherwise report
`validation_failed`.  Exceptions (validation or upload) become
`status = "failed"`. -/
def validate_complete_resume_node (retries : Nat) (env : WorkflowEnv) (st : WState) :
    WState :=
  match env.validate st.retry_count with
  | .error e =>
      { st with error_message := "Complete resume validation failed: ".data ++ e,
                status := "failed".data }
  | .ok v =>
      if v.is_valid || decide (retries ≤ st.retry_count) then
        match env.upload st.retry_count with
        | .error e =>
            { st with
                error_message := "Complete resume validation failed: ".data ++ e,
                status := "failed".data }
        | .ok url =>
            { st with resume_url := url, status := "completed".data }
      else
        { st with status := "validation_failed".data }

/-- `should_retry_after_validation` (`workflow.py` lines 412-436). -/
def route_after_validate (st : WState) : List Char :=
  if st.status = "completed".data then "finish".data
  else if st.status = "validation_failed".data then "retry".data
  else "finish".data

/-- `increment_retry_count` (`workflow.py` lines 439-460). -/
def increment_retry_node (st : WState) : WState :=
  { st with retry_count := st.retry_count + 1 }

/-- Instrumentation: how often each counted stage has run. -/
structure Counts where
  writes : Nat
  gens : Nat
  valids : Nat
deriving Repr, DecidableEq

/-- Fuel-indexed executor of the compiled graph: runs the node's
handler, consults its routing function, and follows the edge table of
`create_workflow` (`workflow.py` lines 557-634). -/
def runFrom (retries : Nat) (env : WorkflowEnv) :
    Nat → WNode → WState → Counts → Option (WState × Counts)
  | 0, _, _, _ => none
  | Nat.succ fuel, node, st, k =>
      match node with
      | .terminal => some (st, k)
      | .initial_screening =>
          let st1 := initial_screening_node env st
          runFrom retries env fuel
            (if route_after_screening st1 = "continue".data then .load_pointers
             else .terminal) st1 k
      | .load_pointers =>
          let st1 := load_pointers_node env st
          runFrom retries env fuel
            (if route_after_load st1 = "continue".data then .analyze_jd
             else .terminal) st1 k
      | .analyze_jd =>
          let st1 := analyze_jd_node env st
          let r := route_after_analyze st1
          runFrom retries env fuel
            (if r.1 = "continue".data then .write_resume else .terminal) r.2 k
      | .write_resume =>
          let st1 := write_resume_node env st
          runFrom retries env fuel
            (if route_after_write st1 = "continue".data then .generate_doc
             else .terminal) st1 { k with writes := k.writes + 1 }
      | .generate_doc =>
          let st1 := generate_document_node env st
          runFrom retries env fuel .validate_complete st1 { k with gens := k.gens + 1 }
      | .validate_complete =>
          let st1 := validate_complete_resume_node retries env st
          runFrom retries env fuel
            (if route_after_validate st1 = "retry".data then .increment_retry
             else .terminal) st1 { k with valids := k.valids + 1 }
      | .increment_retry =>
          runFrom retries env fuel .write_resume (increment_retry_node st) k

/-- `VALIDATION_RETRIES` default (`config/settings.py` line 29). -/
def VALIDATION_RETRIES : Nat := 2

/-- Potential: how many further resume-writing invocations are possible
from a node at a given retry count. -/
def wpot (retries : Nat) : WNode → Nat → Nat
  | .terminal, _ => 0
  | .generate_doc, r => retries - r
  | .validate_complete, r => retries - r
  | .increment_retry, r => retries - r
  | _, r => retries + 1 - r

/-- Node-indexed invariant on the retry counter. -/
def winv (retries : Nat) : WNode → Nat → Prop
  | .increment_retry, r => r < retries
  | _, r => r ≤ retries

/-- Environment whose analysis reports sponsorship `" No "`. -/
def c4Env : WorkflowEnv where
  screen := Except.ok ⟨"x".data, "Not Specified".data, false, []⟩
  pointer_files := Except.ok ["p".data]
  file_content := "c".data
  analyze := Except.ok
    ([("sponsorship".data, MVal.str " No ".data)],
     [("required_skills".data, MVal.str "x".data)])
  write := fun _ => Except.ok []
  generate := fun _ => Except.ok []
  validate := fun _ => Except.ok ⟨true⟩
  upload := fun _ => Except.ok []

/-- The state `analyze_jd_node` produces under `c4Env` from the
initial request state. -/
def c4NoSponsorState : WState :=
  { initialWState "jd".data [] with
    job_metadata := [("sponsorship".data, MVal.str " No ".data)]
    analyzed_requirements := some [("required_skills".data, MVal.str "x".data)]
    status := "analyzed".data }

/-! ## Run-splicing placeholder replacement
(`src/services/document_service.py`, lines 134-184)

A python-docx paragraph is modelled as its list of runs, each run being
its text; `paragraph.text` is the concatenation of the runs.
`_replace_text_in_paragraph` loops `while placeholder in paragraph.text`,
locates the first occurrence, walks the run boundaries for the start
and end positions (returning early when they cannot be resolved), and
splices the replacement into the start run while blanking the runs the
occurrence spanned.  The while loop is given explicit fuel. -/

/-- One paragraph, as the texts of its runs. -/
abbrev Para := List (List Char)

/-- `paragraph.text`: the concatenated run texts. -/
def paraText (runs : Para) : List Char := runs.flatten

/-- The run-walk for the end position (`document_service.py`
lines 164-167): first run where the cumulative length reaches the
(run-relative) target, with the offset inside that run. -/
def scanEnd : Para → Nat → Option (Nat × Nat)
  | [], _ => none
  | r :: rest, d =>
      if d ≤ r.length then some (0, d)
      else (scanEnd rest (d - r.length)).map (fun q => (q.1 + 1, q.2))

/-- The run-walk of `_replace_text_in_paragraph`
(lines 150-169): locate the runs containing the start
(`current_pos + run_len > start_index`) and end
(`current_pos + run_len >= end_index`) positions; `none` when the
boundaries cannot be resolved (the loop's early return). -/
def scanRuns : Para → Nat → Nat → Option ((Nat × Nat) × (Nat × Nat))
  | [], _, _ => none
  | r :: rest, si, ei =>
      if ei ≤ r.length then
        if si < r.length then some ((0, si), (0, ei)) else none
      else if si < r.length then
        (scanEnd rest (ei - r.length)).map (fun q => ((0, si), (q.1 + 1, q.2)))
      else
        (scanRuns rest (si - r.length) (ei - r.length)).map
          (fun q => ((q.1.1 + 1, q.1.2), (q.2.1 + 1, q.2.2)))

/-- Blank the run texts at indices `0..er` (the
`for idx in range(start_run_idx + 1, end_run_idx + 1)` loop, shifted
past the start run). -/
def blankUpTo : Para → Nat → Para
  | [], _ => []
  | _ :: rest, 0 => [] :: rest
  | _ :: rest, n + 1 => [] :: blankUpTo rest n

/-- The splice of lines 175-184: the start run becomes
`prefix ++ replacement ++ suffix` (suffix taken from the end run), and
every run from `start_run_idx + 1` to `end_run_idx` is blanked. -/
def spliceRuns : Para → Nat → Nat → Nat → Nat → List Char → Para
  | [], _, _, _, _, _ => []
  | r :: rest, 0, so, 0, eo, rep => (r.take so ++ rep ++ r.drop eo) :: rest
  | r :: rest, 0, so, er + 1, eo, rep =>
      (r.take so ++ rep ++ (rest.getD er []).drop eo) :: blankUpTo rest er
  | r :: rest, _ + 1, _, 0, _, _ => r :: rest
  | r :: rest, sr + 1, so, er + 1, eo, rep => r :: spliceRuns rest sr so er eo rep

/-- One iteration of the while body: find the first occurrence, walk
the runs, splice; `none` is the body's early return. -/
def replaceStep (runs : Para) (ph rep : List Char) : Option Para :=
  match firstIndexOf (paraText runs) ph with
  | none => none
  | some si =>
      match scanRuns runs si (si + ph.length) with
      | none => none
      | some q => some (spliceRuns runs q.1.1 q.1.2 q.2.1 q.2.2 rep)

/-- The `while placeholder in paragraph.text` loop with fuel:
`some` is normal completion (including the early return), `none` means
the fuel ran out. -/
def replaceLoop : Nat → Para → List Char → List Char → Option Para
  | 0, _, _, _ => none
  | fuel + 1, runs, ph, rep =>
      if listContains (paraText runs) ph then
        match replaceStep runs ph rep with
        | none => some runs
        | some runs1 => replaceLoop fuel runs1 ph rep
      else some runs

/-- The while loop terminates on the given input: some fuel suffices. -/
def replaceTerminates (runs : Para) (ph rep : List Char) : Prop :=
  ∃ fuel, (replaceLoop fuel runs ph rep).isSome

/-- Run texts of the shape `b^n ++ "aabab" ++ b^m`, the even states of
the diverging replacement of `"aba"` by `"baab"`. -/
def c10TextA (n m : Nat) : List Char :=
  List.replicate n 'b' ++ ("aabab".data ++ List.replicate m 'b')

/-- Run texts of the shape `b^n ++ "abaabb" ++ b^m`, the odd states of
the diverging replacement of `"aba"` by `"baab"`. -/
def c10TextB (n m : Nat) : List Char :=
  List.replicate n 'b' ++ ("abaabb".data ++ List.replicate m 'b')

-- ===== Placeholder map and removal pass (document_service.py, C5) =====

/-- One decimal digit. -/
def digitChar (n : Nat) : Char := Char.ofNat (48 + n)

/-- Decimal digits by fueled long division (fuel `n + 1` suffices). -/
def natCharsAux : Nat → Nat → List Char
  | 0, _ => []
  | fuel + 1, n =>
      if n < 10 then [digitChar n]
      else natCharsAux fuel (n / 10) ++ [digitChar (n % 10)]

/-- Python `str(n)` of a natural number. -/
def natChars (n : Nat) : List Char := natCharsAux (n + 1) n

/-- Python `str(n)` of an integer. -/
def intChars (n : Int) : List Char :=
  if n < 0 then '-' :: natChars n.natAbs else natChars n.natAbs

/-- An ASCII single quote. -/
def squote : Char := Char.ofNat 39

/-- A parsed JSON value as a Python object. -/
inductive JVal where
  | str (s : List Char)
  | num (n : Int)
  | bool (b : Bool)
  | null
  | list (l : List JVal)
  | dict (d : List (List Char × JVal))

/-- Python `str`/`repr` of a JSON value (the flag picks `repr`, which
quotes strings; containers render their elements with `repr`). Fueled
on nesting depth. -/
def jvalReprF : Nat → Bool → JVal → List Char
  | 0, _, _ => []
  | _ + 1, false, .str s => s
  | _ + 1, true, .str s => squote :: (s ++ [squote])
  | _ + 1, _, .num n => intChars n
  | _ + 1, _, .bool b => if b then "True".data else "False".data
  | _ + 1, _, .null => "None".data
  | fuel + 1, _, .list l =>
      '[' :: (List.intercalate ", ".data (l.map (jvalReprF fuel true)) ++ [']'])
  | fuel + 1, _, .dict d =>
      '{' :: (List.intercalate ", ".data
        (d.map (fun kv => (squote :: (kv.1 ++ [squote])) ++ ": ".data
          ++ jvalReprF fuel true kv.2)) ++ ['}'])

/-- `type(result)` rendered as in `str(type(x))`. -/
def jvalTypeName : JVal → List Char
  | .str _ => "str".data
  | .num _ => "int".data
  | .bool _ => "bool".data
  | .null => "NoneType".data
  | .list _ => "list".data
  | .dict _ => "dict".data

/-- Python truthiness of the popped `skills` value (default `None`). -/
def jvalTruthy : Option JVal → Bool
  | none => false
  | some .null => false
  | some (.str s) => !s.isEmpty
  | some (.num n) => decide (n ≠ 0)
  | some (.bool b) => b
  | some (.list l) => !l.isEmpty
  | some (.dict d) => !d.isEmpty

/-- The external JSON parsers: `JsonOutputParser().parse` and
`json.loads`, `none` for a parse error. -/
structure JsonEnv where
  strictParse : List Char → Option JVal
  loads : List Char → Option JVal

/-- The brace-depth scan of lines 394-403: `some e` is `end_idx`
(one past the closing brace that returns the count to zero), `none` the
`-1` case. -/
def braceScan : List Char → Int → Nat → Option Nat
  | [], _, _ => none
  | c :: t, depth, i =>
      if c = '{' then braceScan t (depth + 1) (i + 1)
      else if c = '}' then
        if depth - 1 = 0 then some (i + 1) else braceScan t (depth - 1) (i + 1)
      else braceScan t depth (i + 1)

/-- Signed brace count of a prefix. -/
def braceDelta (l : List Char) : Int :=
  (l.countP (fun c => c = '{') : Int) - (l.countP (fun c => c = '}') : Int)

/-- The rewrite errors (`ValueError`) of lines 412-431. -/
inductive RewriteErr where
  | valueError (msg : List Char)
deriving Repr, DecidableEq

/-- Lines 374-416: strict parse, then the recovery scan with its three
error paths. -/
def parseWithRecovery (env : JsonEnv) (raw : List Char) :
    Except RewriteErr JVal :=
  match env.strictParse raw with
  | some v => .ok v
  | none =>
      match findChar '{' (pyStrip raw) with
      | none => .error (.valueError ("No JSON object found in response: ".data
          ++ (pyStrip raw).take 200 ++ "...".data))
      | some start_idx =>
          match braceScan ((pyStrip raw).drop start_idx) 0 0 with
          | none => .error
              (.valueError "Could not find matching closing brace for JSON".data)
          | some end_idx =>
              match env.loads (((pyStrip raw).drop start_idx).take end_idx) with
              | some v => .ok v
              | none => .error
                  (.valueError ("Could not parse JSON from response: ".data
                    ++ (((pyStrip raw).drop start_idx).take end_idx).take 200
                    ++ "...".data))

/-- Lines 428-433: every non-`skills` value must be a list, and every
bullet is coerced with `str`. -/
def coerceRoles (strFuel : Nat) :
    List (List Char × JVal) → Except RewriteErr (List (List Char × JVal))
  | [] => .ok []
  | (role, v) :: rest =>
      match v with
      | JVal.list bullets =>
          match coerceRoles strFuel rest with
          | .error e => .error e
          | .ok acc => .ok ((role,
              JVal.list (bullets.map (fun b => JVal.str (jvalReprF strFuel false b))))
              :: acc)
      | _ => .error (.valueError ("Bullets for role ".data ++ role
          ++ " is not a list".data))

/-- `rewrite_resume` lines 374-442: parse (with recovery), require a
dict, pop `skills`, validate and coerce the role bullets, re-add a
truthy `skills` value. -/
def rewrite_resume (env : JsonEnv) (strFuel : Nat) (raw : List Char) :
    Except RewriteErr (List (List Char × JVal)) :=
  match parseWithRecovery env raw with
  | .error e => .error e
  | .ok (JVal.dict d) =>
      match coerceRoles strFuel (dictRemove d "skills".data) with
      | .error e => .error e
      | .ok out =>
          .ok (if jvalTruthy (dictGet d "skills".data) then
              out ++ [("skills".data, (dictGet d "skills".data).getD JVal.null)]
            else out)
  | .ok v => .error (.valueError ("Response is not a dictionary, got <class ".data
      ++ [squote] ++ jvalTypeName v ++ [squote] ++ ">".data))

def c9Env : JsonEnv := ⟨fun _ => none, fun _ => none⟩

/-- The C9 counterexample reply: text, then an unmatched opening
brace. -/
def c9Content : List Char := "xyz ".data ++ ['{']

-- ===== Write-sequence view of the replacement map (C5 proofs) =====

/-- The ASCII lowering map is idempotent on characters. -/
theorem pyLowerChar_idem (c : Char) : pyLowerChar (pyLowerChar c) = pyLowerChar c := by
  unfold pyLowerChar
  by_cases h : 65 ≤ c.toNat ∧ c.toNat ≤ 90
  · rw [if_pos h]
    obtain ⟨h1, h2⟩ := h
    have key : ∀ n : Nat, 65 ≤ n → n ≤ 90 →
        (if 65 ≤ (Char.ofNat (n + 32)).toNat ∧ (Char.ofNat (n + 32)).toNat ≤ 90 then
          Char.ofNat ((Char.ofNat (n + 32)).toNat + 32) else Char.ofNat (n + 32))
          = Char.ofNat (n + 32) := by
      intro n hn1 hn2
      interval_cases n <;> decide
    exact key c.toNat h1 h2
  · rw [if_neg h, if_neg h]

/-- Lowering a whole string is idempotent. -/
theorem pyLower_idem (l : List Char) : pyLower (pyLower l) = pyLower l := by
  unfold pyLower
  rw [List.map_map]
  exact List.map_congr_left (fun c _ => pyLowerChar_idem c)

/-- Lowering preserves scheme characters. -/
theorem schemeChar_pyLowerChar {c : Char} (h : schemeChar c = true) :
    schemeChar (pyLowerChar c) = true := by
  unfold pyLowerChar
  by_cases hc : 65 ≤ c.toNat ∧ c.toNat ≤ 90
  · rw [if_pos hc]
    obtain ⟨h1, h2⟩ := hc
    have key : ∀ n : Nat, 65 ≤ n → n ≤ 90 → schemeChar (Char.ofNat (n + 32)) = true := by
      intro n hn1 hn2; interval_cases n <;> decide
    exact key _ h1 h2
  · rwa [if_neg hc]

/-- Lowering preserves the letter test. -/
theorem isAlpha_pyLowerChar {c : Char} (h : c.isAlpha = true) :
    (pyLowerChar c).isAlpha = true := by
  unfold pyLowerChar
  by_cases hc : 65 ≤ c.toNat ∧ c.toNat ≤ 90
  · rw [if_pos hc]
    obtain ⟨h1, h2⟩ := hc
    have key : ∀ n : Nat, 65 ≤ n → n ≤ 90 → (Char.ofNat (n + 32)).isAlpha = true := by
      intro n hn1 hn2; interval_cases n <;> decide
    exact key _ h1 h2
  · rwa [if_neg hc]

/-- Lowering never introduces a netloc delimiter. -/
theorem urlDelim_pyLowerChar {c : Char} (h : urlDelim c = false) :
    urlDelim (pyLowerChar c) = false := by
  unfold pyLowerChar
  by_cases hc : 65 ≤ c.toNat ∧ c.toNat ≤ 90
  · rw [if_pos hc]
    obtain ⟨h1, h2⟩ := hc
    have key : ∀ n : Nat, 65 ≤ n → n ≤ 90 → urlDelim (Char.ofNat (n + 32)) = false := by
      intro n hn1 hn2; interval_cases n <;> decide
    exact key _ h1 h2
  · rwa [if_neg hc]

/-- Scheme characters are never a colon. -/
theorem schemeChar_ne_colon {c : Char} (h : schemeChar c = true) : c ≠ ':' := by
  intro he
  subst he
  exact absurd h (by decide)

/-- A block of elements satisfying `p` passes through `takeWhile`. -/
theorem takeWhile_append_all {p : Char → Bool} {xs : List Char} (ys : List Char)
    (h : ∀ c ∈ xs, p c = true) :
    List.takeWhile p (xs ++ ys) = xs ++ List.takeWhile p ys := by
  induction xs with
  | nil => simp
  | cons a t ih =>
      simp only [List.cons_append, List.takeWhile_cons]
      rw [if_pos (h a (by simp)), ih (fun c hc => h c (by simp [hc]))]

/-- A block of elements satisfying `p` is consumed by `dropWhile`. -/
theorem dropWhile_append_all {p : Char → Bool} {xs : List Char} (ys : List Char)
    (h : ∀ c ∈ xs, p c = true) :
    List.dropWhile p (xs ++ ys) = List.dropWhile p ys := by
  induction xs with
  | nil => simp
  | cons a t ih =>
      simp only [List.cons_append, List.dropWhile_cons]
      rw [if_pos (h a (by simp))]
      exact ih (fun c hc => h c (by simp [hc]))

/-- A nonempty `takeWhile` result starts where the list starts. -/
theorem takeWhile_head? {p : Char → Bool} {l : List Char}
    (h : List.takeWhile p l ≠ []) : (List.takeWhile p l).head? = l.head? := by
  cases l with
  | nil => simp at h
  | cons a t =>
      rw [List.takeWhile_cons] at h ⊢
      by_cases hp : p a = true
      · rw [if_pos hp]; rfl
      · rw [if_neg hp] at h; exact absurd rfl h

/-- Stripping trailing slashes is idempotent. -/
theorem rstripSlash_idem (l : List Char) : rstripSlash (rstripSlash l) = rstripSlash l := by
  unfold rstripSlash
  rw [List.reverse_reverse, List.dropWhile_idempotent]

/-- Stripping trailing slashes yields a leading part of the input. -/
theorem rstripSlash_isPref (l : List Char) : rstripSlash l <+: l := by
  refine List.reverse_suffix.mp ?_
  unfold rstripSlash
  rw [List.reverse_reverse]
  exact List.dropWhile_suffix _

/-- Characters of the slash-stripped string come from the input. -/
theorem mem_rstripSlash {c : Char} {l : List Char} (h : c ∈ rstripSlash l) : c ∈ l :=
  (rstripSlash_isPref l).subset h

/-- Stripping trailing slashes from a slash-headed string keeps the head
(or empties it). -/
theorem rstripSlash_head {t0 : List Char} :
    rstripSlash ('/' :: t0) = [] ∨ ∃ t, rstripSlash ('/' :: t0) = '/' :: t := by
  rcases hr : rstripSlash ('/' :: t0) with _ | ⟨x, xs⟩
  · exact Or.inl rfl
  · right
    have hpre := rstripSlash_isPref ('/' :: t0)
    rw [hr] at hpre
    obtain ⟨s, hs⟩ := hpre
    rw [List.cons_append] at hs
    obtain ⟨hx, -⟩ := List.cons.injEq .. ▸ hs
    exact ⟨xs, by rw [hx]⟩

/-- Inversion principle for the scheme splitter. -/
theorem splitScheme_cases (l : List Char) :
    ((splitScheme l).1 = [] ∧ (splitScheme l).2 = l) ∨
    (∃ pre, l.takeWhile (fun d => d ≠ ':') = pre ∧ pre ≠ [] ∧
      (∀ c ∈ pre, schemeChar c = true) ∧ l.head?.elim false Char.isAlpha = true ∧
      (splitScheme l).1 = pyLower pre ∧ (splitScheme l).2 = l.drop (pre.length + 1)) := by
  unfold splitScheme
  by_cases h : (l.takeWhile (fun d => d ≠ ':')).length < l.length ∧
      l.takeWhile (fun d => d ≠ ':') ≠ [] ∧
      (l.head?.elim false Char.isAlpha) ∧ (l.takeWhile (fun d => d ≠ ':')).all schemeChar
  · right
    exact ⟨_, rfl, h.2.1, List.all_eq_true.mp h.2.2.2, h.2.2.1,
      by rw [if_pos h], by rw [if_pos h]⟩
  · left
    rw [if_neg h]
    exact ⟨rfl, rfl⟩

/-- Inversion principle for the netloc splitter. -/
theorem splitNetloc_cases (l : List Char) :
    ((splitNetloc l).1 = [] ∧ (splitNetloc l).2 = l) ∨
    (∃ rest, l = '/' :: '/' :: rest ∧
      (splitNetloc l).1 = rest.takeWhile (fun c => !(urlDelim c)) ∧
      (splitNetloc l).2 = rest.dropWhile (fun c => !(urlDelim c))) := by
  match l with
  | [] => exact Or.inl ⟨rfl, rfl⟩
  | [a] => exact Or.inl ⟨rfl, rfl⟩
  | a :: b :: rest =>
      by_cases h : a = '/' ∧ b = '/'
      · right
        obtain ⟨ha, hb⟩ := h
        subst ha; subst hb
        exact ⟨rest, rfl, by simp [splitNetloc], by simp [splitNetloc]⟩
      · left
        constructor <;> simp [splitNetloc, if_neg h]

/-- Parsing a canonically built URL recovers its three components. -/
theorem urlparse_build (S N P : List Char)
    (hS0 : S ≠ []) (hS2 : ∀ c ∈ S, schemeChar c = true)
    (hS3 : S.head?.elim false Char.isAlpha = true)
    (hSlow : pyLower S = S)
    (_hN0 : N ≠ []) (hN2 : ∀ c ∈ N, urlDelim c = false)
    (hP : P = [] ∨ ∃ t, P = '/' :: t)
    (hPq : ∀ c ∈ P, c ≠ '#' ∧ c ≠ '?') :
    urlparse (S ++ ':' :: '/' :: '/' :: (N ++ P)) = ⟨S, N, P⟩ := by
  have htw : (S ++ ':' :: '/' :: '/' :: (N ++ P)).takeWhile (fun d => d ≠ ':') = S := by
    rw [takeWhile_append_all _ (fun c hc => by
      simpa using schemeChar_ne_colon (hS2 c hc))]
    rw [List.takeWhile_cons]
    simp
  have hcond : (((S ++ ':' :: '/' :: '/' :: (N ++ P)).takeWhile
        (fun d => d ≠ ':')).length < (S ++ ':' :: '/' :: '/' :: (N ++ P)).length ∧
      (S ++ ':' :: '/' :: '/' :: (N ++ P)).takeWhile (fun d => d ≠ ':') ≠ [] ∧
      ((S ++ ':' :: '/' :: '/' :: (N ++ P)).head?.elim false Char.isAlpha) ∧
      ((S ++ ':' :: '/' :: '/' :: (N ++ P)).takeWhile (fun d => d ≠ ':')).all schemeChar) := by
    refine ⟨?_, ?_, ?_, ?_⟩
    · rw [htw]; simp [List.length_append]
    · rw [htw]; exact hS0
    · rw [List.head?_append_of_ne_nil S hS0]; exact hS3
    · rw [htw]; exact List.all_eq_true.mpr hS2
  have hscheme : splitScheme (S ++ ':' :: '/' :: '/' :: (N ++ P))
      = (S, '/' :: '/' :: (N ++ P)) := by
    unfold splitScheme
    rw [if_pos hcond, htw]
    refine Prod.ext ?_ ?_
    · exact hSlow
    · show (S ++ ':' :: '/' :: '/' :: (N ++ P)).drop (S.length + 1) = _
      rw [List.append_cons S ':' ('/' :: '/' :: (N ++ P))]
      have hlen : (S ++ [':']).length = S.length + 1 := by simp
      rw [← hlen, List.drop_left]
  have htwN : (N ++ P).takeWhile (fun c => !(urlDelim c)) = N := by
    rw [takeWhile_append_all _ (fun c hc => by rw [hN2 c hc]; rfl)]
    rcases hP with hP | ⟨t, hP⟩
    · rw [hP]; simp
    · rw [hP, List.takeWhile_cons]
      simp [urlDelim]
  have hdwN : (N ++ P).dropWhile (fun c => !(urlDelim c)) = P := by
    rw [dropWhile_append_all _ (fun c hc => by rw [hN2 c hc]; rfl)]
    rcases hP with hP | ⟨t, hP⟩
    · rw [hP]; rfl
    · rw [hP, List.dropWhile_cons]
      simp [urlDelim]
  have hnet : splitNetloc ('/' :: '/' :: (N ++ P)) = (N, P) := by
    simp [splitNetloc, htwN, hdwN]
  have hpath1 : P.takeWhile (fun c => c ≠ '#') = P :=
    List.takeWhile_eq_self_iff.mpr (fun c hc => by simpa using (hPq c hc).1)
  have hpath2 : P.takeWhile (fun c => c ≠ '?') = P :=
    List.takeWhile_eq_self_iff.mpr (fun c hc => by simpa using (hPq c hc).2)
  unfold urlparse
  rw [hscheme]
  show UrlParts.mk S (splitNetloc ('/' :: '/' :: (N ++ P))).1
      (((splitNetloc ('/' :: '/' :: (N ++ P))).2.takeWhile (fun c => c ≠ '#')).takeWhile
        (fun c => c ≠ '?')) = _
  rw [hnet]
  show UrlParts.mk S N ((P.takeWhile (fun c => c ≠ '#')).takeWhile (fun c => c ≠ '?')) = _
  rw [hpath1, hpath2]

/-- List-algebra form of the string the normalizers build. -/
theorem build_concat (S X Y : List Char) :
    S ++ "://".data ++ X ++ Y = S ++ ':' :: '/' :: '/' :: (X ++ Y) := by
  have h : "://".data = [':', '/', '/'] := rfl
  simp [h, List.append_assoc]

/-- The first element surviving `dropWhile` fails the predicate. -/
theorem dropWhile_head_false {p : Char → Bool} {l t : List Char} {d : Char}
    (h : List.dropWhile p l = d :: t) : p d = false := by
  induction l with
  | nil => simp at h
  | cons a l ih =>
      rw [List.dropWhile_cons] at h
      by_cases hp : p a = true
      · exact ih (by rwa [if_pos hp] at h)
      · rw [if_neg hp] at h
        obtain ⟨h1, -⟩ := List.cons.injEq .. ▸ h
        rw [← h1]
        exact Bool.not_eq_true _ ▸ hp

/-- C6: `normalize_job_url` is idempotent — normalizing twice equals
normalizing once, for every input string — and the casing /
trailing-slash / query-string variants of the spec's example URL all
normalize to `https://example.com/jobs/software-engineer`, with
`normalize_base_url` yielding `https://example.com` for either. -/
theorem C6_normalize_job_url_idempotent :
    (∀ u : List Char, normalize_job_url (normalize_job_url u) = normalize_job_url u) ∧
    normalize_job_url "HTTPS://Example.com/jobs/software-engineer/?ref=homepage".data
      = "https://example.com/jobs/software-engineer".data ∧
    normalize_job_url "https://Example.com/jobs/software-engineer/".data
      = "https://example.com/jobs/software-engineer".data ∧
    normalize_base_url "HTTPS://Example.com/jobs/software-engineer/?ref=homepage".data
      = "https://example.com".data ∧
    normalize_base_url "https://Example.com/jobs/software-engineer/".data
      = "https://example.com".data := by
  refine ⟨?_, by decide, by decide, by decide, by decide⟩
  intro u
  by_cases hn : (urlparse u).netloc = []
  · have h1 : normalize_job_url u = u := by
      unfold normalize_job_url; rw [if_pos hn]
    rw [h1]; exact h1
  · have hexp : normalize_job_url u =
        (if (urlparse u).scheme = [] then "https".data else (urlparse u).scheme)
          ++ "://".data ++ pyLower (urlparse u).netloc
          ++ rstripSlash (urlparse u).path := by
      unfold normalize_job_url; rw [if_neg hn]
    have hSfacts : (if (urlparse u).scheme = [] then "https".data else (urlparse u).scheme) ≠ [] ∧
        (∀ c ∈ (if (urlparse u).scheme = [] then "https".data else (urlparse u).scheme),
          schemeChar c = true) ∧
        (if (urlparse u).scheme = [] then "https".data
          else (urlparse u).scheme).head?.elim false Char.isAlpha = true ∧
        pyLower (if (urlparse u).scheme = [] then "https".data else (urlparse u).scheme)
          = (if (urlparse u).scheme = [] then "https".data else (urlparse u).scheme) := by
      rcases splitScheme_cases u with ⟨he, -⟩ | ⟨pre, hpre, hne, hsc, hal, h1, -⟩
      · have he' : (urlparse u).scheme = [] := he
        rw [if_pos he']
        exact ⟨by decide, by decide, by decide, by decide⟩
      · have hsch : (urlparse u).scheme = pyLower pre := h1
        have hpne : pyLower pre ≠ [] := by
          simpa [pyLower, List.map_eq_nil_iff] using hne
        rw [hsch, if_neg hpne]
        refine ⟨hpne, ?_, ?_, pyLower_idem pre⟩
        · intro c hc
          obtain ⟨d, hd, rfl⟩ := List.mem_map.mp hc
          exact schemeChar_pyLowerChar (hsc d hd)
        · have h2 : pre.head? = u.head? := by
            rw [← hpre]
            exact takeWhile_head? (by rw [hpre]; exact hne)
          cases pre with
          | nil => exact absurd rfl hne
          | cons d0 t =>
              have h3 : u.head? = some d0 := by rw [← h2]; rfl
              rw [h3] at hal
              simp only [Option.elim] at hal
              show ((pyLowerChar d0 :: pyLower t).head?.elim false Char.isAlpha) = true
              simpa using isAlpha_pyLowerChar hal
    have hNfacts : pyLower (urlparse u).netloc ≠ [] ∧
        (∀ c ∈ pyLower (urlparse u).netloc, urlDelim c = false) := by
      refine ⟨by simpa [pyLower, List.map_eq_nil_iff] using hn, ?_⟩
      intro c hc
      obtain ⟨d, hd, rfl⟩ := List.mem_map.mp hc
      apply urlDelim_pyLowerChar
      rcases splitNetloc_cases (splitScheme u).2 with ⟨he, -⟩ | ⟨rest, -, h1, -⟩
      · exact absurd he hn
      · have hd' : d ∈ rest.takeWhile (fun c => !(urlDelim c)) := by
          rw [← h1]; exact hd
        have := List.mem_takeWhile_imp hd'
        simpa using this
    have hPfacts : (rstripSlash (urlparse u).path = [] ∨
          ∃ t, rstripSlash (urlparse u).path = '/' :: t) ∧
        (∀ c ∈ rstripSlash (urlparse u).path, c ≠ '#' ∧ c ≠ '?') := by
      constructor
      · rcases splitNetloc_cases (splitScheme u).2 with ⟨he, -⟩ | ⟨rest, -, -, h2⟩
        · exact absurd he hn
        · rcases hr2 : rest.dropWhile (fun c => !(urlDelim c)) with - | ⟨d, t⟩
          · left
            have hp : (urlparse u).path = [] := by
              show (((splitNetloc (splitScheme u).2).2.takeWhile
                  (fun c => c ≠ '#')).takeWhile (fun c => c ≠ '?')) = []
              rw [h2, hr2]; rfl
            rw [hp]; rfl
          · have hdf : (!(urlDelim d)) = false := dropWhile_head_false hr2
            have hd' : urlDelim d = true := by simpa using hdf
            have hp : (urlparse u).path =
                ((d :: t).takeWhile (fun c => c ≠ '#')).takeWhile (fun c => c ≠ '?') := by
              show (((splitNetloc (splitScheme u).2).2.takeWhile
                  (fun c => c ≠ '#')).takeWhile (fun c => c ≠ '?')) = _
              rw [h2, hr2]
            have hd3 : d = '/' ∨ d = '?' ∨ d = '#' := by
              by_contra hcon
              push_neg at hcon
              obtain ⟨ha, hb, hc⟩ := hcon
              simp [urlDelim, ha, hb, hc] at hd'
            rcases hd3 with rfl | rfl | rfl
            · rw [hp]
              rw [List.takeWhile_cons, if_pos (by decide), List.takeWhile_cons,
                if_pos (by decide)]
              exact rstripSlash_head
            · left
              rw [hp, List.takeWhile_cons, if_pos (by decide), List.takeWhile_cons,
                if_neg (by decide)]
              rfl
            · left
              rw [hp, List.takeWhile_cons, if_neg (by decide)]
              rfl
      · intro c hc
        have hc' : c ∈ (urlparse u).path := mem_rstripSlash hc
        have hc2 : c ∈ (splitNetloc (splitScheme u).2).2.takeWhile (fun c => c ≠ '#') :=
          List.Sublist.mem hc' (List.takeWhile_sublist _)
        constructor
        · simpa using List.mem_takeWhile_imp hc2
        · simpa using List.mem_takeWhile_imp hc'
    obtain ⟨hs1, hs2, hs3, hs4⟩ := hSfacts
    obtain ⟨hn1, hn2'⟩ := hNfacts
    obtain ⟨hp1, hp2⟩ := hPfacts
    rw [hexp, build_concat]
    have hup := urlparse_build _ _ _ hs1 hs2 hs3 hs4 hn1 hn2' hp1 hp2
    unfold normalize_job_url
    rw [hup]
    dsimp only
    rw [if_neg hn1, if_neg hs1, pyLower_idem, rstripSlash_idem]
    exact build_concat _ _ _

set_option maxRecDepth 10000

/-- Sanity anchor: the embedded SHA-256 reproduces the FIPS 180-4 test
vector for `"abc"`. -/
theorem sha256_matches_abc_vector :
    sha256HexOfBytes (utf8 "abc".data)
      = "ba7816bf8f01cfea414140de5dae2223b00361a396177a9cb410ff61f20015ad".data := by
  decide

/-- Sanity anchor: the embedded SHA-256 reproduces the digest of the
empty message. -/
theorem sha256_matches_empty_vector :
    sha256HexOfBytes (utf8 "".data)
      = "e3b0c44298fc1c149afbf4c8996fb92427ae41e4649b934ca495991b7852b855".data := by
  decide

/-- C7 counterexample: the claim says the hash depends only on the
normalized URL and the first 200 characters of the *trimmed*
description.  The code slices first and strips second, so the two
descriptions below agree on the first 200 characters of their trimmed
forms yet hash differently. -/
theorem C7_counterexample :
    (pyStrip (' ' :: List.replicate 200 'a')).take 200
      = (pyStrip (List.replicate 200 'a')).take 200 ∧
    derive_job_hash "https://example.com/jobs/1".data (' ' :: List.replicate 200 'a')
      ≠ derive_job_hash "https://example.com/jobs/1".data (List.replicate 200 'a') := by
  constructor
  · decide
  · decide

/-- C7 amended: the hash is the hex SHA-256 of
`normalized_job_url ++ "::" ++ strip(first 200 chars)`; it is
deterministic; and it depends on the description only through its first
200 raw characters (content beyond the window never matters). -/
theorem C7_job_hash_amended :
    (∀ u d : List Char, derive_job_hash u d
        = sha256HexOfBytes (utf8 (normalize_job_url u ++ "::".data
          ++ pyStrip (d.take 200)))) ∧
    (∀ u1 u2 d1 d2 : List Char, u1 = u2 → d1 = d2 →
        derive_job_hash u1 d1 = derive_job_hash u2 d2) ∧
    (∀ u d1 d2 : List Char, d1.take 200 = d2.take 200 →
        derive_job_hash u d1 = derive_job_hash u d2) := by
  refine ⟨fun u d => rfl, fun _ _ _ _ h1 h2 => by rw [h1, h2], fun u d1 d2 h => ?_⟩
  unfold derive_job_hash
  rw [h]

/-- Witness for `C7_job_hash_amended` at concrete inputs: two
descriptions agreeing on the raw 200-character window hash equally. -/
theorem C7_job_hash_amended_witness :
    (List.replicate 200 'a' ++ ['x']).take 200 = (List.replicate 200 'a' ++ ['y']).take 200 ∧
    derive_job_hash "https://example.com".data (List.replicate 200 'a' ++ ['x'])
      = derive_job_hash "https://example.com".data (List.replicate 200 'a' ++ ['y']) :=
  ⟨by decide, C7_job_hash_amended.2.2 _ _ _ (by decide)⟩

/-- One-step unfolding of the runner at the screening node. -/
theorem runFrom_succ_screening (retries : Nat) (env : WorkflowEnv) (fuel : Nat)
    (st : WState) (k : Counts) :
    runFrom retries env (fuel + 1) .initial_screening st k
      = runFrom retries env fuel
          (if route_after_screening (initial_screening_node env st) = "continue".data
            then .load_pointers else .terminal)
          (initial_screening_node env st) k := rfl

/-- One-step unfolding of the runner at the pointer-loading node. -/
theorem runFrom_succ_load (retries : Nat) (env : WorkflowEnv) (fuel : Nat)
    (st : WState) (k : Counts) :
    runFrom retries env (fuel + 1) .load_pointers st k
      = runFrom retries env fuel
          (if route_after_load (load_pointers_node env st) = "continue".data
            then .analyze_jd else .terminal)
          (load_pointers_node env st) k := rfl

/-- One-step unfolding of the runner at the analysis node. -/
theorem runFrom_succ_analyze (retries : Nat) (env : WorkflowEnv) (fuel : Nat)
    (st : WState) (k : Counts) :
    runFrom retries env (fuel + 1) .analyze_jd st k
      = runFrom retries env fuel
          (if (route_after_analyze (analyze_jd_node env st)).1 = "continue".data
            then .write_resume else .terminal)
          (route_after_analyze (analyze_jd_node env st)).2 k := rfl

/-- One-step unfolding of the runner at the resume-writing node. -/
theorem runFrom_succ_write (retries : Nat) (env : WorkflowEnv) (fuel : Nat)
    (st : WState) (k : Counts) :
    runFrom retries env (fuel + 1) .write_resume st k
      = runFrom retries env fuel
          (if route_after_write (write_resume_node env st) = "continue".data
            then .generate_doc else .terminal)
          (write_resume_node env st) { k with writes := k.writes + 1 } := rfl

/-- One-step unfolding of the runner at the document-generation node. -/
theorem runFrom_succ_generate (retries : Nat) (env : WorkflowEnv) (fuel : Nat)
    (st : WState) (k : Counts) :
    runFrom retries env (fuel + 1) .generate_doc st k
      = runFrom retries env fuel .validate_complete
          (generate_document_node env st) { k with gens := k.gens + 1 } := rfl

/-- One-step unfolding of the runner at the validation node. -/
theorem runFrom_succ_validate (retries : Nat) (env : WorkflowEnv) (fuel : Nat)
    (st : WState) (k : Counts) :
    runFrom retries env (fuel + 1) .validate_complete st k
      = runFrom retries env fuel
          (if route_after_validate (validate_complete_resume_node retries env st)
              = "retry".data
            then .increment_retry else .terminal)
          (validate_complete_resume_node retries env st)
          { k with valids := k.valids + 1 } := rfl

/-- One-step unfolding of the runner at the retry-increment node. -/
theorem runFrom_succ_increment (retries : Nat) (env : WorkflowEnv) (fuel : Nat)
    (st : WState) (k : Counts) :
    runFrom retries env (fuel + 1) .increment_retry st k
      = runFrom retries env fuel .write_resume (increment_retry_node st) k := rfl

/-- One-step unfolding of the runner at the end node. -/
theorem runFrom_succ_terminal (retries : Nat) (env : WorkflowEnv) (fuel : Nat)
    (st : WState) (k : Counts) :
    runFrom retries env (fuel + 1) .terminal st k = some (st, k) := rfl

/-- Screening does not change the retry counter. -/
theorem screening_retry_count (env : WorkflowEnv) (st : WState) :
    (initial_screening_node env st).retry_count = st.retry_count := by
  unfold initial_screening_node
  rcases env.screen with e | sc
  · rfl
  · dsimp only
    split <;> rfl

/-- Pointer loading does not change the retry counter. -/
theorem load_retry_count (env : WorkflowEnv) (st : WState) :
    (load_pointers_node env st).retry_count = st.retry_count := by
  unfold load_pointers_node
  rcases env.pointer_files with e | fs
  · rfl
  · dsimp only
    split <;> rfl

/-- Analysis and its router do not change the retry counter. -/
theorem analyze_retry_count (env : WorkflowEnv) (st : WState) :
    (route_after_analyze (analyze_jd_node env st)).2.retry_count = st.retry_count := by
  have h1 : (analyze_jd_node env st).retry_count = st.retry_count := by
    unfold analyze_jd_node
    rcases env.analyze with e | mr <;> rfl
  unfold route_after_analyze
  split
  · exact h1
  · split
    · exact h1
    · dsimp only
      split <;> exact h1

/-- Resume writing does not change the retry counter. -/
theorem write_retry_count (env : WorkflowEnv) (st : WState) :
    (write_resume_node env st).retry_count = st.retry_count := by
  unfold write_resume_node
  rcases env.write st.retry_count with e | m <;> rfl

/-- Document generation does not change the retry counter. -/
theorem generate_retry_count (env : WorkflowEnv) (st : WState) :
    (generate_document_node env st).retry_count = st.retry_count := by
  unfold generate_document_node
  rcases env.generate st.retry_count with e | p <;> rfl

/-- Validation does not change the retry counter. -/
theorem validate_retry_count (retries : Nat) (env : WorkflowEnv) (st : WState) :
    (validate_complete_resume_node retries env st).retry_count = st.retry_count := by
  unfold validate_complete_resume_node
  rcases env.validate st.retry_count with e | v
  · rfl
  · dsimp only
    split
    · rcases env.upload st.retry_count with e | u <;> rfl
    · rfl

/-- A `"retry"` route out of validation implies the retry counter was
still below the configured maximum. -/
theorem validate_retry_route (retries : Nat) (env : WorkflowEnv) (st : WState)
    (h : route_after_validate (validate_complete_resume_node retries env st)
      = "retry".data) :
    st.retry_count < retries := by
  have hfin : ∀ s : WState, s.status ≠ "completed".data →
      s.status ≠ "validation_failed".data →
      route_after_validate s = "finish".data := by
    intro s h1 h2
    unfold route_after_validate
    rw [if_neg h1, if_neg h2]
  have hcomp : ∀ s : WState, s.status = "completed".data →
      route_after_validate s = "finish".data := by
    intro s h1
    unfold route_after_validate
    rw [if_pos h1]
  by_contra hge
  push_neg at hge
  have hroute : route_after_validate (validate_complete_resume_node retries env st)
      = "finish".data := by
    unfold validate_complete_resume_node
    rcases hv : env.validate st.retry_count with e | v
    · exact hfin _
        (fun hx => absurd (show "failed".data = "completed".data from hx) (by decide))
        (fun hx => absurd (show "failed".data = "validation_failed".data from hx)
          (by decide))
    · dsimp only
      rw [if_pos (by simp [hge])]
      rcases hu : env.upload st.retry_count with e | u
      · exact hfin _
          (fun hx => absurd (show "failed".data = "completed".data from hx) (by decide))
          (fun hx => absurd (show "failed".data = "validation_failed".data from hx)
            (by decide))
      · exact hcomp _ rfl
  rw [hroute] at h
  exact absurd h (by decide)

/-- Along every run, the number of resume-writing invocations grows by
at most the node's potential. -/
theorem runFrom_writes_bound (retries : Nat) (env : WorkflowEnv) :
    ∀ fuel node st k st' k',
      winv retries node st.retry_count →
      runFrom retries env fuel node st k = some (st', k') →
      k'.writes ≤ k.writes + wpot retries node st.retry_count := by
  intro fuel
  induction fuel with
  | zero =>
      intro node st k st' k' _ h
      exact absurd h (by simp [runFrom])
  | succ fuel ih =>
      intro node st k st' k' hinv h
      cases node with
      | terminal =>
          rw [runFrom_succ_terminal] at h
          simp only [Option.some.injEq, Prod.mk.injEq] at h
          obtain ⟨-, rfl⟩ := h
          simp [wpot]
      | initial_screening =>
          rw [runFrom_succ_screening] at h
          have hr := screening_retry_count env st
          by_cases hc : route_after_screening (initial_screening_node env st)
              = "continue".data
          · rw [if_pos hc] at h
            have hb := ih _ _ _ _ _ (show winv retries .load_pointers
              (initial_screening_node env st).retry_count by rw [hr]; exact hinv) h
            rw [hr] at hb
            simpa [wpot] using hb
          · rw [if_neg hc] at h
            have hb := ih _ _ _ _ _ (show winv retries .terminal
              (initial_screening_node env st).retry_count by rw [hr]; exact hinv) h
            simp [wpot] at hb ⊢
            omega
      | load_pointers =>
          rw [runFrom_succ_load] at h
          have hr := load_retry_count env st
          by_cases hc : route_after_load (load_pointers_node env st) = "continue".data
          · rw [if_pos hc] at h
            have hb := ih _ _ _ _ _ (show winv retries .analyze_jd
              (load_pointers_node env st).retry_count by rw [hr]; exact hinv) h
            rw [hr] at hb
            simpa [wpot] using hb
          · rw [if_neg hc] at h
            have hb := ih _ _ _ _ _ (show winv retries .terminal
              (load_pointers_node env st).retry_count by rw [hr]; exact hinv) h
            simp [wpot] at hb ⊢
            omega
      | analyze_jd =>
          rw [runFrom_succ_analyze] at h
          have hr := analyze_retry_count env st
          by_cases hc : (route_after_analyze (analyze_jd_node env st)).1
              = "continue".data
          · rw [if_pos hc] at h
            have hb := ih _ _ _ _ _ (show winv retries .write_resume
              (route_after_analyze (analyze_jd_node env st)).2.retry_count by
                rw [hr]; exact hinv) h
            rw [hr] at hb
            simpa [wpot] using hb
          · rw [if_neg hc] at h
            have hb := ih _ _ _ _ _ (show winv retries .terminal
              (route_after_analyze (analyze_jd_node env st)).2.retry_count by
                rw [hr]; exact hinv) h
            simp [wpot] at hb ⊢
            omega
      | write_resume =>
          rw [runFrom_succ_write] at h
          have hr := write_retry_count env st
          have hinv' : st.retry_count ≤ retries := hinv
          by_cases hc : route_after_write (write_resume_node env st) = "continue".data
          · rw [if_pos hc] at h
            have hb := ih _ _ _ _ _ (show winv retries .generate_doc
              (write_resume_node env st).retry_count by
                show _ ≤ _
                rw [hr]; exact hinv') h
            rw [hr] at hb
            simp [wpot] at hb ⊢
            omega
          · rw [if_neg hc] at h
            have hb := ih _ _ _ _ _ (show winv retries .terminal
              (write_resume_node env st).retry_count by
                show _ ≤ _
                rw [hr]; exact hinv') h
            simp [wpot] at hb ⊢
            omega
      | generate_doc =>
          rw [runFrom_succ_generate] at h
          have hr := generate_retry_count env st
          have hinv' : st.retry_count ≤ retries := hinv
          have hb := ih _ _ _ _ _ (show winv retries .validate_complete
            (generate_document_node env st).retry_count by
              show _ ≤ _
              rw [hr]; exact hinv') h
          rw [hr] at hb
          simpa [wpot] using hb
      | validate_complete =>
          rw [runFrom_succ_validate] at h
          have hr := validate_retry_count retries env st
          by_cases hc : route_after_validate
              (validate_complete_resume_node retries env st) = "retry".data
          · rw [if_pos hc] at h
            have hlt := validate_retry_route retries env st hc
            have hb := ih _ _ _ _ _ (show winv retries .increment_retry
              (validate_complete_resume_node retries env st).retry_count by
                show _ < _
                rw [hr]; exact hlt) h
            rw [hr] at hb
            simp [wpot] at hb ⊢
            omega
          · rw [if_neg hc] at h
            have hb := ih _ _ _ _ _ (show winv retries .terminal
              (validate_complete_resume_node retries env st).retry_count by
                show _ ≤ _
                rw [hr]; exact Nat.le_of_lt_succ (Nat.lt_succ_of_le hinv)) h
            simp [wpot] at hb ⊢
            omega
      | increment_retry =>
          rw [runFrom_succ_increment] at h
          have hinv' : st.retry_count < retries := hinv
          have hb := ih _ _ _ _ _ (show winv retries .write_resume
            (increment_retry_node st).retry_count by
              show _ ≤ _
              exact hinv') h
          simp [wpot, increment_retry_node] at hb ⊢
          omega

/-- The write router continues on a non-failed status with non-empty
sections. -/
theorem route_after_write_continue {st : WState} (h1 : st.status ≠ "failed".data)
    (h2 : truthyOptMeta st.resume_sections = true) :
    route_after_write st = "continue".data := by
  unfold route_after_write
  rw [if_neg h1, if_neg (by rw [h2]; decide)]

/-- The validation router retries on `validation_failed`. -/
theorem route_after_validate_retry {st : WState}
    (h : st.status = "validation_failed".data) :
    route_after_validate st = "retry".data := by
  unfold route_after_validate
  rw [if_neg (by rw [h]; decide), if_pos h]

/-- The validation router finishes on `completed`. -/
theorem route_after_validate_completed {st : WState}
    (h : st.status = "completed".data) :
    route_after_validate st = "finish".data := by
  unfold route_after_validate
  rw [if_pos h]

/-- A run entering the write node with `retry_count + j = retries + 1`
(for positive `j`) under an environment whose stages succeed and whose
validation result is never valid performs exactly `j` more write,
generate and validate steps and completes with the uploaded link. -/
theorem loop_exact (retries : Nat) (env : WorkflowEnv)
    (hw : ∀ n, ∃ m, env.write n = Except.ok m ∧ m ≠ [])
    (hg : ∀ n, ∃ p, env.generate n = Except.ok p)
    (hv : ∀ n, ∃ v, env.validate n = Except.ok v ∧ v.is_valid = false)
    (hu : ∀ n, ∃ u, env.upload n = Except.ok u) :
    ∀ j (st : WState) (k : Counts), 0 < j → st.retry_count + j = retries + 1 →
      ∃ st' u, runFrom retries env (4 * j + 1) .write_resume st k
          = some (st', ⟨k.writes + j, k.gens + j, k.valids + j⟩) ∧
        st'.status = "completed".data ∧ env.upload retries = Except.ok u ∧
        st'.resume_url = u ∧ st'.retry_count = retries := by
  intro j
  induction j with
  | zero =>
      intro st k hj _
      exact absurd hj (by decide)
  | succ j ihj =>
      intro st k _ hsum
      obtain ⟨m, hwm, hmne⟩ := hw st.retry_count
      obtain ⟨p, hgp⟩ := hg st.retry_count
      obtain ⟨v, hvv, hvnv⟩ := hv st.retry_count
      have hst1 : write_resume_node env st
          = { st with resume_sections := some m, status := "written".data } := by
        unfold write_resume_node
        rw [hwm]
      have hr1 : route_after_write (write_resume_node env st) = "continue".data := by
        rw [hst1]
        exact route_after_write_continue
          (fun hx => absurd (show "written".data = "failed".data from hx) (by decide))
          (by simp [truthyOptMeta, hmne])
      rw [show (4 * (j + 1) + 1 : Nat) = (4 * j + 4) + 1 from by ring,
        runFrom_succ_write, hr1, if_pos rfl, hst1]
      have hst2 : generate_document_node env
            { st with resume_sections := some m, status := "written".data }
          = { st with resume_sections := some m, generated_doc_path := p,
                      status := "generated".data } := by
        unfold generate_document_node
        rw [show env.generate ({ st with resume_sections := some m,
                                         status := "written".data } : WState).retry_count
          = Except.ok p from hgp]
      rw [show (4 * j + 4 : Nat) = (4 * j + 3) + 1 from by ring,
        runFrom_succ_generate, hst2]
      rw [show (4 * j + 3 : Nat) = (4 * j + 2) + 1 from by ring,
        runFrom_succ_validate]
      have hval : env.validate ({ st with resume_sections := some m, generated_doc_path := p, status := "generated".data } : WState).retry_count
          = Except.ok v := hvv
      by_cases hj0 : j = 0
      · subst hj0
        obtain ⟨u, huu⟩ := hu st.retry_count
        have hretr : st.retry_count = retries := by omega
        have hst3 : validate_complete_resume_node retries env
              { st with resume_sections := some m, generated_doc_path := p, status := "generated".data }
            = { st with resume_sections := some m, generated_doc_path := p, resume_url := u, status := "completed".data } := by
          unfold validate_complete_resume_node
          rw [hval]
          dsimp only
          rw [if_pos (by simp [hretr])]
          rw [show env.upload ({ st with resume_sections := some m, generated_doc_path := p, status := "generated".data } : WState).retry_count
            = Except.ok u from huu]
        rw [hst3]
        have hr3 : route_after_validate
            ({ st with resume_sections := some m, generated_doc_path := p, resume_url := u, status := "completed".data } : WState)
            = "finish".data := route_after_validate_completed rfl
        rw [hr3, if_neg (by decide)]
        rw [show (4 * 0 + 2 : Nat) = 1 + 1 from rfl, runFrom_succ_terminal]
        refine ⟨_, u, rfl, rfl, ?_, rfl, ?_⟩
        · rw [← hretr]
          exact huu
        · exact hretr
      · have hlt : st.retry_count < retries := by omega
        have hst3 : validate_complete_resume_node retries env
              { st with resume_sections := some m, generated_doc_path := p, status := "generated".data }
            = { st with resume_sections := some m, generated_doc_path := p, status := "validation_failed".data } := by
          unfold validate_complete_resume_node
          rw [hval]
          dsimp only
          rw [if_neg (by simp only [hvnv, Bool.false_or, decide_eq_true_eq]; omega)]
        rw [hst3]
        have hr3 : route_after_validate
            ({ st with resume_sections := some m, generated_doc_path := p, status := "validation_failed".data } : WState)
            = "retry".data := route_after_validate_retry rfl
        rw [hr3, if_pos rfl]
        rw [show (4 * j + 2 : Nat) = (4 * j + 1) + 1 from by ring,
          runFrom_succ_increment]
        obtain ⟨st', u, hrun, hst, hup, hurl, hret⟩ :=
          ihj (increment_retry_node { st with resume_sections := some m, generated_doc_path := p, status := "validation_failed".data })
            ⟨k.writes + 1, k.gens + 1, k.valids + 1⟩
            (by omega) (by show st.retry_count + 1 + j = retries + 1; omega)
        refine ⟨st', u, ?_, hst, hup, hurl, hret⟩
        rw [hrun]
        simp only [Option.some.injEq, Prod.mk.injEq, Counts.mk.injEq]
        refine ⟨trivial, ?_, ?_, ?_⟩ <;> omega

/-- C3: along every workflow run started with `retry_count = 0` the
resume-writing stage executes at most `VALIDATION_RETRIES + 1` times
(3 with the default of 2); and when every stage succeeds while the
validation result is never valid, the writing stage executes exactly
`retries + 1` times, the final attempt uploads the document anyway,
and the run terminates with status `"completed"`. -/
theorem C3_validation_retry_bound :
    (∀ (retries : Nat) (env : WorkflowEnv) (fuel : Nat) (st0 st' : WState)
        (k' : Counts), st0.retry_count = 0 →
        runFrom retries env fuel .initial_screening st0 ⟨0, 0, 0⟩ = some (st', k') →
        k'.writes ≤ retries + 1) ∧
    (∀ (retries : Nat) (env : WorkflowEnv) (st0 : WState), st0.retry_count = 0 →
        (∀ n, ∃ m, env.write n = Except.ok m ∧ m ≠ []) →
        (∀ n, ∃ p, env.generate n = Except.ok p) →
        (∀ n, ∃ v, env.validate n = Except.ok v ∧ v.is_valid = false) →
        (∀ n, ∃ u, env.upload n = Except.ok u) →
        ∃ st' u, runFrom retries env (4 * (retries + 1) + 1) .write_resume st0 ⟨0, 0, 0⟩
            = some (st', ⟨retries + 1, retries + 1, retries + 1⟩) ∧
          st'.status = "completed".data ∧ env.upload retries = Except.ok u ∧
          st'.resume_url = u) ∧
    VALIDATION_RETRIES = 2 := by
  refine ⟨?_, ?_, rfl⟩
  · intro retries env fuel st0 st' k' h0 hrun
    have hb := runFrom_writes_bound retries env fuel .initial_screening st0
      ⟨0, 0, 0⟩ st' k' (show st0.retry_count ≤ retries by omega) hrun
    simpa [wpot, h0] using hb
  · intro retries env st0 h0 hw hg hv hu
    obtain ⟨st', u, hrun, hst, hup, hurl, -⟩ :=
      loop_exact retries env hw hg hv hu (retries + 1) st0 ⟨0, 0, 0⟩
        (by omega) (by omega)
    exact ⟨st', u, by simpa using hrun, hst, hup, hurl⟩

/-- An environment whose stages all succeed and whose validation
result is never valid, used to witness the retry-bound theorem. -/
def neverValidEnv : WorkflowEnv where
  screen := Except.ok ⟨"Cleaned description".data, "Yes".data, false, []⟩
  pointer_files := Except.ok ["pointers.md".data]
  file_content := "base pointers".data
  analyze := Except.ok
    ([("sponsorship".data, MVal.str "Yes".data)],
     [("required_skills".data, MVal.str "python".data)])
  write := fun _ => Except.ok [("LEAFICIENT".data, MVal.str "bullet".data)]
  generate := fun _ => Except.ok "generated_resumes/Resume.docx".data
  validate := fun _ => Except.ok ⟨false⟩
  upload := fun _ => Except.ok "https://drive.google.com/file/d/out".data

/-- Witness for `C3_validation_retry_bound` at the default retry limit:
with `retries = 2` the never-valid run writes exactly 3 times and
completes with the uploaded link. -/
theorem C3_validation_retry_bound_witness :
    (initialWState "jd".data []).retry_count = 0 ∧
    (runFrom 2 neverValidEnv 13 .write_resume (initialWState "jd".data []) ⟨0, 0, 0⟩).map
        (fun r => (r.2, r.1.status, r.1.resume_url))
      = some (⟨3, 3, 3⟩, "completed".data,
          "https://drive.google.com/file/d/out".data) := by
  refine ⟨rfl, ?_⟩
  obtain ⟨st', u, hrun, hst, hup, hurl⟩ :=
    C3_validation_retry_bound.2.1 2 neverValidEnv (initialWState "jd".data []) rfl
      (fun n => ⟨_, rfl, by decide⟩) (fun n => ⟨_, rfl⟩)
      (fun n => ⟨_, rfl, rfl⟩) (fun n => ⟨_, rfl⟩)
  have hu' : u = "https://drive.google.com/file/d/out".data := by
    have := hup
    simp only [neverValidEnv] at this
    exact (Except.ok.inj this).symm
  rw [show (13 : Nat) = 4 * (2 + 1) + 1 from rfl, hrun]
  simp [hst, hurl, hu']

/-- A post-analysis state with a failed status and sponsorship `"No"`:
the router returns `"end"` but leaves the status `"failed"`. -/
def c4FailedState : WState :=
  { job_description := "jd".data
    job_metadata := [("sponsorship".data, MVal.str "No".data)]
    base_resume_pointers := some "pointers".data
    analyzed_requirements := none
    resume_sections := none
    generated_doc_path := []
    resume_url := []
    retry_count := 0
    error_message := []
    status := "failed".data }

/-- C4 counterexample: a state at the post-analysis decision point
whose sponsorship is exactly `"No"` but whose status is `"failed"`
(with no analyzed requirements) is routed to `"end"` with its status
left `"failed"` — not set to `"no_sponsorship"` — and no error message
set, contradicting the claim as stated for every such state. -/
theorem C4_counterexample :
    pyLower (pyStrip (sponsorshipOf c4FailedState)) = "no".data ∧
    (route_after_analyze c4FailedState).1 = "end".data ∧
    (route_after_analyze c4FailedState).2.status = "failed".data ∧
    (route_after_analyze c4FailedState).2.status ≠ "no_sponsorship".data ∧
    (route_after_analyze c4FailedState).2.error_message = [] := by
  refine ⟨by decide, by decide, by decide, by decide, by decide⟩

/-- C4 amended: for every state at the post-analysis decision point
whose status is not `"failed"` and whose analyzed requirements are
non-empty, a sponsorship equal to `"no"` after trimming and lowering
makes the router return `"end"` with status `"no_sponsorship"` and the
fixed error message; and the workflow then terminates at once — the
resume-writing, document-generation and validation counters stay at
zero. -/
theorem C4_sponsorship_gating (st : WState)
    (h1 : st.status ≠ "failed".data)
    (h2 : truthyOptMeta st.analyzed_requirements = true)
    (h3 : pyLower (pyStrip (sponsorshipOf st)) = "no".data) :
    (route_after_analyze st).1 = "end".data ∧
    (route_after_analyze st).2.status = "no_sponsorship".data ∧
    (route_after_analyze st).2.error_message
      = "This position does not offer H1B visa sponsorship".data ∧
    (∀ (retries : Nat) (env : WorkflowEnv) (fuel : Nat) (st0 : WState),
        analyze_jd_node env st0 = st →
        runFrom retries env (fuel + 2) .analyze_jd st0 ⟨0, 0, 0⟩
          = some ((route_after_analyze st).2, ⟨0, 0, 0⟩)) := by
  have hne : sponsorshipOf st ≠ [] := by
    intro hx
    rw [hx] at h3
    exact absurd h3 (by decide)
  have hroute : route_after_analyze st
      = ("end".data,
        { st with status := "no_sponsorship".data,
                  error_message :=
                    "This position does not offer H1B visa sponsorship".data }) := by
    unfold route_after_analyze
    rw [if_neg h1, if_neg (by rw [h2]; decide), if_pos ⟨hne, h3⟩]
  refine ⟨by rw [hroute], by rw [hroute], by rw [hroute], ?_⟩
  intro retries env fuel st0 hpost
  rw [show (fuel + 2 : Nat) = (fuel + 1) + 1 from rfl, runFrom_succ_analyze,
    hpost, hroute,
    if_neg (fun hx => absurd (show "end".data = "continue".data from hx) (by decide))]
  exact runFrom_succ_terminal retries env fuel _ _

/-- Witness for `C4_sponsorship_gating`: a concrete analyzed state with
sponsorship `" No "` is routed to `"end"` as `"no_sponsorship"`, and a
run reaching it stops with all stage counters at zero. -/
theorem C4_sponsorship_gating_witness :
    ((c4NoSponsorState.status ≠ "failed".data) ∧
      truthyOptMeta c4NoSponsorState.analyzed_requirements = true ∧
      pyLower (pyStrip (sponsorshipOf c4NoSponsorState)) = "no".data) ∧
    (route_after_analyze c4NoSponsorState).1 = "end".data ∧
    (route_after_analyze c4NoSponsorState).2.status = "no_sponsorship".data ∧
    runFrom 2 c4Env 7 .analyze_jd (initialWState "jd".data []) ⟨0, 0, 0⟩
      = some ((route_after_analyze c4NoSponsorState).2, ⟨0, 0, 0⟩) := by
  have h := C4_sponsorship_gating c4NoSponsorState (by decide) (by decide) (by decide)
  exact ⟨⟨by decide, by decide, by decide⟩, h.1, h.2.1,
    h.2.2.2 2 c4Env 5 (initialWState "jd".data []) rfl⟩

/-- C1: the claim says the repository exposes an age-based
`evict_older_than` operation and that the eviction call made by every
public `StatusService` operation succeeds.  In the code the
`StatusRepository` class defines no such method, so `_evict_locked`
raises `AttributeError` and `create_status`, `update_status`,
`get_status`, `list_all` and `mark_applied` all fail on every call —
contradicting the repository's own test, which calls
`repo.evict_older_than(3600)`. -/
theorem C1_repository_eviction_missing :
    statusRepositoryMethods.contains "evict_older_than" = false ∧
    create_status 1000000 "0123abcd".data initialService "https://example.com/jobs/1".data
      "processing".data "received".data [] (some []) none = .error evictAttrErr ∧
    update_status 1000000 "0123abcd".data initialService (some "abc".data) none
      "processing".data "step1".data [] [] none none none = .error evictAttrErr ∧
    get_status 1000000 initialService (some "abc".data) none none = .error evictAttrErr ∧
    list_all 1000000 initialService true = .error evictAttrErr ∧
    mark_applied 1000000 initialService "abc".data true = .error evictAttrErr :=
  ⟨rfl, rfl, rfl, rfl, rfl, rfl⟩

/-- C2: the claim says `src/agents/state.py` declares a
`ScreeningResult` record and that `AgentState` declares
`screened_job_description`, `screening_result`, `application_questions`,
`status_id` and `job_hash`.  The module declares neither: the import
`from src.agents.state import ScreeningResult` performed by
`screening_service.py` cannot resolve, and none of the five slots is
among the `AgentState` keys. -/
theorem C2_screening_result_missing :
    importsResolve statePyClasses screeningServiceStateImports = false ∧
    statePyClasses.contains "ScreeningResult" = false ∧
    agentStateFields.contains "screened_job_description" = false ∧
    agentStateFields.contains "screening_result" = false ∧
    agentStateFields.contains "application_questions" = false ∧
    agentStateFields.contains "status_id" = false ∧
    agentStateFields.contains "job_hash" = false := by
  decide

/-- C8: the claim describes `update_status`'s locate/create/merge
behaviour, but the method's first action after validating its arguments
is `_evict_locked`, whose repository call raises `AttributeError` —
so `update_status` never reaches the lookup or the merge.  Only the
argument-validation `ValueError` (both identifiers missing) fires
before the eviction. -/
theorem C8_update_status_raises_before_update :
    update_status 1000000 "ffffffff".data initialService (some "abc".data) none
      "completed".data "uploaded".data "Upload finished".data
      "https://drive.google.com/file/d/abc123".data
      (some [("validation_score".data, MVal.num 92)]) none none
      = .error evictAttrErr ∧
    update_status 1000000 "ffffffff".data initialService none none
      "processing".data "x".data [] [] none none none
      = .error (.valueError "Either status_id or job_url is required to update status") :=
  ⟨rfl, rfl⟩

/-- A found occurrence really is one: the needle is a prefix of the
tail at the reported index and fits inside the text. -/
theorem firstIndexOf_spec {t ph : List Char} {si : Nat}
    (h : firstIndexOf t ph = some si) :
    ph <+: t.drop si ∧ si + ph.length ≤ t.length := by
  induction t generalizing si with
  | nil =>
      unfold firstIndexOf at h
      split at h
      · rename_i hp
        obtain rfl : si = 0 := (Option.some.inj h).symm
        have hpre := List.isPrefixOf_iff_prefix.mp hp
        exact ⟨by simpa using hpre, by simpa using hpre.length_le⟩
      · exact absurd h (by simp)
  | cons c t ih =>
      unfold firstIndexOf at h
      split at h
      · rename_i hp
        obtain rfl : si = 0 := (Option.some.inj h).symm
        have hpre := List.isPrefixOf_iff_prefix.mp hp
        exact ⟨by simpa using hpre, by simpa using hpre.length_le⟩
      · rcases hfi : firstIndexOf t ph with - | si'
        · rw [hfi] at h
          simp at h
        · rw [hfi] at h
          simp only [Option.map_some', Option.some.injEq] at h
          subst h
          obtain ⟨h1, h2⟩ := ih hfi
          refine ⟨by simpa using h1, ?_⟩
          simp only [List.length_cons]
          omega

/-- The end-of-occurrence run walk splits the concatenated text at the
target position: dropped end-run tail plus the text after the blanked
runs is the text from the target on. -/
theorem scanEnd_spec : ∀ {rest : Para} {d er eo : Nat},
    scanEnd rest d = some (er, eo) →
    (rest.getD er []).drop eo ++ (blankUpTo rest er).flatten = rest.flatten.drop d := by
  intro rest
  induction rest with
  | nil =>
      intro d er eo h
      simp [scanEnd] at h
  | cons r rest ih =>
      intro d er eo h
      unfold scanEnd at h
      split at h
      · rename_i hd
        simp only [Option.some.injEq, Prod.mk.injEq] at h
        obtain ⟨h1, h2⟩ := h
        subst h1
        subst h2
        simp only [List.getD, blankUpTo, List.flatten_cons, List.get?_eq_getElem?]
        rw [List.drop_append_eq_append_drop, Nat.sub_eq_zero_of_le hd]
        simp
      · rename_i hd
        rcases hse : scanEnd rest (d - r.length) with - | q
        · rw [hse] at h
          simp at h
        · rw [hse] at h
          simp only [Option.map_some', Option.some.injEq, Prod.mk.injEq] at h
          obtain ⟨h1, h2⟩ := h
          subst h1
          subst h2
          have hrec := ih
            (show scanEnd rest (d - r.length) = some (q.1, q.2) by rw [hse])
          simp only [blankUpTo, List.flatten_cons]
          rw [List.drop_append_eq_append_drop,
            List.drop_eq_nil_of_le (by omega : r.length ≤ d)]
          simpa using hrec

/-- Splice correctness: when the run walk resolves the boundaries, the
spliced paragraph's concatenated text is the clean textual replacement
of the occurrence. -/
theorem scan_splice (rep : List Char) : ∀ (runs : Para) (si ei sr so er eo : Nat),
    scanRuns runs si ei = some ((sr, so), (er, eo)) →
    (spliceRuns runs sr so er eo rep).flatten
      = (runs.flatten.take si) ++ rep ++ (runs.flatten.drop ei) := by
  intro runs
  induction runs with
  | nil =>
      intro si ei sr so er eo h
      simp [scanRuns] at h
  | cons r rest ih =>
      intro si ei sr so er eo h
      unfold scanRuns at h
      split at h
      · rename_i hei
        split at h
        · rename_i hsi
          simp only [Option.some.injEq, Prod.mk.injEq] at h
          obtain ⟨⟨h1, h2⟩, h3, h4⟩ := h
          subst h1
          subst h2
          subst h3
          subst h4
          simp only [spliceRuns, List.flatten_cons]
          rw [List.take_append_eq_append_take, List.drop_append_eq_append_drop,
            Nat.sub_eq_zero_of_le hei, Nat.sub_eq_zero_of_le (Nat.le_of_lt hsi)]
          simp [List.append_assoc]
        · simp at h
      · rename_i hei
        split at h
        · rename_i hsi
          rcases hse : scanEnd rest (ei - r.length) with - | q
          · rw [hse] at h
            simp at h
          · rw [hse] at h
            simp only [Option.map_some', Option.some.injEq, Prod.mk.injEq] at h
            obtain ⟨⟨h1, h2⟩, h3, h4⟩ := h
            subst h1
            subst h2
            subst h3
            subst h4
            have hend := scanEnd_spec
              (show scanEnd rest (ei - r.length) = some (q.1, q.2) by rw [hse])
            simp only [spliceRuns, List.flatten_cons, List.getD]
            rw [List.take_append_eq_append_take, List.drop_append_eq_append_drop,
              Nat.sub_eq_zero_of_le (Nat.le_of_lt hsi),
              List.drop_eq_nil_of_le (by omega : r.length ≤ ei)]
            simp only [List.getD] at hend
            simp only [List.take_zero, List.nil_append, List.append_nil,
              List.append_assoc]
            rw [hend]
        · rcases hsr : scanRuns rest (si - r.length) (ei - r.length) with - | q
          · rw [hsr] at h
            simp at h
          · rw [hsr] at h
            simp only [Option.map_some', Option.some.injEq, Prod.mk.injEq] at h
            obtain ⟨⟨h1, h2⟩, h3, h4⟩ := h
            subst h1
            subst h2
            subst h3
            subst h4
            rename_i hsi
            have hrec := ih (si - r.length) (ei - r.length) q.1.1 q.1.2 q.2.1 q.2.2
              (by rw [hsr])
            simp only [spliceRuns, List.flatten_cons, hrec]
            rw [List.take_append_eq_append_take, List.drop_append_eq_append_drop,
              List.take_of_length_le (by omega : r.length ≤ si),
              List.drop_eq_nil_of_le (by omega : r.length ≤ ei)]
            simp [List.append_assoc]

/-- With a replacement strictly shorter than the placeholder, each
completed iteration strictly shrinks the paragraph text, so the while
loop finishes within `length + 1` iterations. -/
theorem replaceLoop_total {ph rep : List Char} (hlen : rep.length < ph.length) :
    ∀ N runs, (paraText runs).length ≤ N →
      (replaceLoop (N + 1) runs ph rep).isSome = true := by
  intro N
  induction N with
  | zero =>
      intro runs hr
      unfold replaceLoop
      by_cases hc : listContains (paraText runs) ph
      · exfalso
        unfold listContains at hc
        rcases hfi : firstIndexOf (paraText runs) ph with - | si
        · rw [hfi] at hc
          simp at hc
        · obtain ⟨-, h2⟩ := firstIndexOf_spec hfi
          omega
      · rw [if_neg hc]
        rfl
  | succ N ihN =>
      intro runs hr
      unfold replaceLoop
      by_cases hc : listContains (paraText runs) ph
      · rw [if_pos hc]
        rcases hst : replaceStep runs ph rep with - | runs1
        · rfl
        · have hshort : (paraText runs1).length ≤ N := by
            unfold replaceStep at hst
            rcases hfi : firstIndexOf (paraText runs) ph with - | si
            · rw [hfi] at hst
              simp at hst
            · rcases hsc : scanRuns runs si (si + ph.length) with - | q
              · simp only [hfi, hsc] at hst
                exact absurd hst (by simp)
              · simp only [hfi, hsc, Option.some.injEq] at hst
                obtain ⟨-, h2⟩ := firstIndexOf_spec hfi
                have hsp := scan_splice rep runs si (si + ph.length)
                  q.1.1 q.1.2 q.2.1 q.2.2 (by rw [hsc])
                rw [← hst]
                show ((spliceRuns runs q.1.1 q.1.2 q.2.1 q.2.2 rep).flatten).length ≤ N
                rw [hsp]
                simp only [List.length_append, List.length_take, List.length_drop]
                have hN : (paraText runs).length ≤ N + 1 := hr
                unfold paraText at hN h2
                omega
          exact ihN runs1 hshort
      · rw [if_neg hc]
        rfl

/-- A one-run paragraph's text is that run. -/
theorem paraText_single (t : List Char) : paraText [t] = t := by
  simp [paraText]

/-- A leading `b` commutes past a block of replicated `b`s. -/
theorem replicate_cons_b (n : Nat) (Z : List Char) :
    List.replicate n 'b' ++ 'b' :: Z = 'b' :: (List.replicate n 'b' ++ Z) := by
  induction n with
  | zero => rfl
  | succ n ih => simp [List.replicate_succ, ih]

/-- `find` on a text headed by `b` shifts the result by one, since the
needle `aba` never matches at a `b`. -/
theorem fio_bstep (t : List Char) :
    firstIndexOf ('b' :: t) "aba".data
      = (firstIndexOf t "aba".data).map (· + 1) := rfl

/-- Where `aba` first occurs in the even cycle states. -/
theorem fio_A (n m : Nat) :
    firstIndexOf (c10TextA n m) "aba".data = some (n + 1) := by
  induction n with
  | zero => rfl
  | succ n ih =>
      show firstIndexOf ('b' :: c10TextA n m) "aba".data = some (n + 2)
      rw [fio_bstep, ih]
      rfl

/-- Where `aba` first occurs in the odd cycle states. -/
theorem fio_B (n m : Nat) :
    firstIndexOf (c10TextB n m) "aba".data = some n := by
  induction n with
  | zero => rfl
  | succ n ih =>
      show firstIndexOf ('b' :: c10TextB n m) "aba".data = some (n + 1)
      rw [fio_bstep, ih]
      rfl

/-- Length of the even cycle states. -/
theorem c10_lenA (n m : Nat) : (c10TextA n m).length = n + (5 + m) := by
  unfold c10TextA
  rw [List.length_append, List.length_append, List.length_replicate,
    List.length_replicate]
  rfl

/-- Length of the odd cycle states. -/
theorem c10_lenB (n m : Nat) : (c10TextB n m).length = n + (6 + m) := by
  unfold c10TextB
  rw [List.length_append, List.length_append, List.length_replicate,
    List.length_replicate]
  rfl

/-- One while-body iteration on a one-run paragraph whose occurrence
fits: the single run is spliced textually. -/
theorem replaceStep_single (t ph rep : List Char) (si : Nat)
    (hfi : firstIndexOf (paraText [t]) ph = some si)
    (hei : si + ph.length ≤ t.length) (hsi : si < t.length) :
    replaceStep [t] ph rep
      = some [t.take si ++ rep ++ t.drop (si + ph.length)] := by
  unfold replaceStep
  simp only [hfi]
  have hsc : scanRuns [t] si (si + ph.length)
      = some ((0, si), (0, si + ph.length)) := by
    unfold scanRuns
    rw [if_pos hei, if_pos hsi]
  simp only [hsc]
  rfl

/-- Replacing `aba` by `baab` maps an even cycle state to the matching
odd one. -/
theorem c10_stepA (n m : Nat) :
    replaceStep [c10TextA n m] "aba".data "baab".data
      = some [c10TextB n m] := by
  have hlen := c10_lenA n m
  have hstep := replaceStep_single (c10TextA n m) "aba".data "baab".data (n + 1)
    (by rw [paraText_single]; exact fio_A n m)
    (show n + 1 + 3 ≤ (c10TextA n m).length by rw [hlen]; omega)
    (show n + 1 < (c10TextA n m).length by rw [hlen]; omega)
  rw [hstep]
  have htake : (c10TextA n m).take (n + 1) = List.replicate n 'b' ++ ['a'] := by
    unfold c10TextA
    rw [List.take_append_eq_append_take, List.take_of_length_le (by simp),
      List.length_replicate, Nat.add_sub_cancel_left]
    rfl
  have hdrop : (c10TextA n m).drop (n + 1 + "aba".data.length)
      = List.replicate (m + 1) 'b' := by
    show (c10TextA n m).drop (n + 4) = List.replicate (m + 1) 'b'
    unfold c10TextA
    rw [List.drop_append_eq_append_drop, List.drop_eq_nil_of_le (by simp),
      List.length_replicate, Nat.add_sub_cancel_left]
    rfl
  rw [htake, hdrop]
  simp only [List.append_assoc]
  rfl

/-- Replacing `aba` by `baab` maps an odd cycle state back to an even
one, one `b` wider on each side. -/
theorem c10_stepB (n m : Nat) :
    replaceStep [c10TextB n m] "aba".data "baab".data
      = some [c10TextA (n + 1) (m + 1)] := by
  have hlen := c10_lenB n m
  have hstep := replaceStep_single (c10TextB n m) "aba".data "baab".data n
    (by rw [paraText_single]; exact fio_B n m)
    (show n + 3 ≤ (c10TextB n m).length by rw [hlen]; omega)
    (show n < (c10TextB n m).length by rw [hlen]; omega)
  rw [hstep]
  have htake : (c10TextB n m).take n = List.replicate n 'b' := by
    unfold c10TextB
    rw [List.take_append_eq_append_take, List.take_of_length_le (by simp),
      List.length_replicate, Nat.sub_self]
    simp
  have hdrop : (c10TextB n m).drop (n + "aba".data.length)
      = 'a' :: 'b' :: 'b' :: List.replicate m 'b' := by
    show (c10TextB n m).drop (n + 3) = 'a' :: 'b' :: 'b' :: List.replicate m 'b'
    unfold c10TextB
    rw [List.drop_append_eq_append_drop, List.drop_eq_nil_of_le (by simp),
      List.length_replicate, Nat.add_sub_cancel_left]
    rfl
  rw [htake, hdrop]
  simp only [List.append_assoc]
  show some [List.replicate n 'b'
      ++ 'b' :: ("aabab".data ++ List.replicate (m + 1) 'b')]
    = some [c10TextA (n + 1) (m + 1)]
  rw [replicate_cons_b n ("aabab".data ++ List.replicate (m + 1) 'b')]
  rfl

/-- Unfolding of one while-loop iteration. -/
theorem replaceLoop_succ (fuel : Nat) (runs : Para) (ph rep : List Char) :
    replaceLoop (fuel + 1) runs ph rep =
      if listContains (paraText runs) ph then
        match replaceStep runs ph rep with
        | none => some runs
        | some runs1 => replaceLoop fuel runs1 ph rep
      else some runs := rfl

/-- No amount of fuel finishes the loop from either family of cycle
states: each iteration hands over to the other family. -/
theorem c10_diverges (fuel : Nat) : ∀ n m,
    replaceLoop fuel [c10TextA n m] "aba".data "baab".data = none ∧
    replaceLoop fuel [c10TextB n m] "aba".data "baab".data = none := by
  induction fuel with
  | zero => exact fun n m => ⟨rfl, rfl⟩
  | succ fuel ih =>
      intro n m
      have hcA : listContains (paraText [c10TextA n m]) "aba".data = true := by
        unfold listContains
        rw [paraText_single, fio_A]
        rfl
      have hcB : listContains (paraText [c10TextB n m]) "aba".data = true := by
        unfold listContains
        rw [paraText_single, fio_B]
        rfl
      constructor
      · have hA : replaceLoop (fuel + 1) [c10TextA n m] "aba".data "baab".data
            = replaceLoop fuel [c10TextB n m] "aba".data "baab".data := by
          rw [replaceLoop_succ, if_pos hcA, c10_stepA]
        rw [hA]
        exact (ih n m).2
      · have hB : replaceLoop (fuel + 1) [c10TextB n m] "aba".data "baab".data
            = replaceLoop fuel [c10TextA (n + 1) (m + 1)] "aba".data "baab".data := by
          rw [replaceLoop_succ, if_pos hcB, c10_stepB]
        rw [hB]
        exact (ih (n + 1) (m + 1)).1

/-- C10 counterexample: the claim's precondition holds — the
replacement `"baab"` does not contain the placeholder `"aba"` — yet on
the one-run paragraph `"aabab"` the while loop of
`_replace_text_in_paragraph` never terminates: each iteration
reintroduces the placeholder, cycling through
`b^n ++ "aabab" ++ b^m` and `b^n ++ "abaabb" ++ b^m` forever. -/
theorem C10_counterexample :
    listContains "baab".data "aba".data = false ∧
    ¬ replaceTerminates ["aabab".data] "aba".data "baab".data := by
  refine ⟨by decide, ?_⟩
  intro hterm
  obtain ⟨fuel, hfuel⟩ := hterm
  have h := (c10_diverges fuel 0 0).1
  have he : ([c10TextA 0 0] : Para) = ["aabab".data] := rfl
  rw [he] at h
  rw [h] at hfuel
  exact absurd hfuel (by decide)

/-- C10 amended: `_replace_text_in_paragraph` terminates for every
paragraph, placeholder and replacement whenever the replacement is
strictly shorter than the placeholder — each completed iteration
strictly shrinks the concatenated run text, and unresolvable run
boundaries return early.  (The claim's original precondition — the
replacement merely not containing the placeholder — does not ensure
termination; see the counterexample.) -/
theorem C10_replacement_loop_termination (runs : Para) (ph rep : List Char)
    (h : rep.length < ph.length) : replaceTerminates runs ph rep :=
  ⟨(paraText runs).length + 1, replaceLoop_total h _ runs (Nat.le_refl _)⟩

/-- Witness for `C10_replacement_loop_termination`: replacing `"aba"`
by the shorter `"ab"` terminates on a two-run paragraph. -/
theorem C10_replacement_loop_termination_witness :
    ("ab".data).length < ("aba".data).length ∧
    replaceTerminates ["xab".data, "ay".data] "aba".data "ab".data :=
  ⟨by decide, C10_replacement_loop_termination _ _ _ (by decide)⟩

/-- The brace-depth scan of `rewrite_resume` is sound: a reported end
index lies inside the text and the consumed prefix carries balanced
braces relative to the starting depth. -/
theorem braceDelta_cons (c : Char) (l : List Char) :
    braceDelta (c :: l)
      = (if c = '{' then 1 else if c = '}' then (-1 : Int) else 0)
        + braceDelta l := by
  by_cases h1 : c = '{'
  · subst h1
    simp only [braceDelta, List.countP_cons, if_pos rfl]
    simp
    ring
  · by_cases h2 : c = '}'
    · subst h2
      simp only [braceDelta, List.countP_cons]
      simp [h1]
      ring
    · simp only [braceDelta, List.countP_cons]
      simp [h1, h2]

theorem braceScan_spec : ∀ (t : List Char) (d : Int) (i e : Nat),
    braceScan t d i = some e →
    i ≤ e ∧ e - i ≤ t.length ∧ d + braceDelta (t.take (e - i)) = 0 := by
  intro t
  induction t with
  | nil =>
      intro d i e h
      simp [braceScan] at h
  | cons c t ih =>
      intro d i e h
      unfold braceScan at h
      by_cases h1 : c = '{'
      · rw [if_pos h1] at h
        obtain ⟨ha, hb, hc⟩ := ih (d + 1) (i + 1) e h
        refine ⟨by omega, by simp only [List.length_cons]; omega, ?_⟩
        rw [show e - i = (e - (i + 1)) + 1 by omega,
          show List.take ((e - (i + 1)) + 1) (c :: t)
            = c :: List.take (e - (i + 1)) t from rfl,
          braceDelta_cons, if_pos h1]
        omega
      · rw [if_neg h1] at h
        by_cases h2 : c = '}'
        · rw [if_pos h2] at h
          by_cases h0 : d - 1 = 0
          · rw [if_pos h0] at h
            obtain rfl : e = i + 1 := (Option.some.inj h).symm
            refine ⟨by omega, by simp, ?_⟩
            rw [show i + 1 - i = 1 by omega,
              show List.take 1 (c :: t) = [c] from rfl]
            rw [show braceDelta [c] = braceDelta (c :: ([] : List Char)) from rfl,
              braceDelta_cons, if_neg h1, if_pos h2]
            simp only [braceDelta, List.countP_nil]
            omega
          · rw [if_neg h0] at h
            obtain ⟨ha, hb, hc⟩ := ih (d - 1) (i + 1) e h
            refine ⟨by omega, by simp only [List.length_cons]; omega, ?_⟩
            rw [show e - i = (e - (i + 1)) + 1 by omega,
              show List.take ((e - (i + 1)) + 1) (c :: t)
                = c :: List.take (e - (i + 1)) t from rfl,
              braceDelta_cons, if_neg h1, if_pos h2]
            omega
        · rw [if_neg h2] at h
          obtain ⟨ha, hb, hc⟩ := ih d (i + 1) e h
          refine ⟨by omega, by simp only [List.length_cons]; omega, ?_⟩
          rw [show e - i = (e - (i + 1)) + 1 by omega,
            show List.take ((e - (i + 1)) + 1) (c :: t)
              = c :: List.take (e - (i + 1)) t from rfl,
            braceDelta_cons, if_neg h1, if_neg h2]
          omega

/-- C9 counterexample: strict parsing fails on `xyz \x7b`, the reply
contains an opening brace with no matching closing brace, and the
raised error is the fixed message
`Could not find matching closing brace for JSON`, which carries no copy
of the original content at all — against the claim that all three
recovery failures report a truncated copy of the content. -/
theorem C9_counterexample :
    rewrite_resume c9Env 1 c9Content
      = .error (.valueError "Could not find matching closing brace for JSON".data) ∧
    listContains "Could not find matching closing brace for JSON".data c9Content
      = false :=
  ⟨rfl, by decide⟩

/-- C9 amended: when strict parsing fails, the recovery locates the
first opening brace of the stripped content and scans forward tracking
brace depth; a missing opening brace or a failed parse of the extracted
substring raises a ValueError carrying a truncated copy (of the
stripped content, resp. of the extracted substring) — but a missing
matching closing brace raises a fixed message with no copy of the
content. A successful end index always lies inside the scanned text
with balanced braces. A strict parse producing a non-dict raises the
type error; a dict has `skills` popped, every remaining value must be a
list (ValueError otherwise), bullets are str-coerced, and a truthy
`skills` is re-added last. -/
theorem C9_json_recovery (env : JsonEnv) (raw : List Char) (fuel : Nat) :
    (env.strictParse raw = none → findChar '{' (pyStrip raw) = none →
      rewrite_resume env fuel raw = .error (.valueError
        ("No JSON object found in response: ".data
          ++ (pyStrip raw).take 200 ++ "...".data))) ∧
    (∀ si, env.strictParse raw = none → findChar '{' (pyStrip raw) = some si →
      braceScan ((pyStrip raw).drop si) 0 0 = none →
      rewrite_resume env fuel raw = .error (.valueError
        "Could not find matching closing brace for JSON".data)) ∧
    (∀ si ei, env.strictParse raw = none → findChar '{' (pyStrip raw) = some si →
      braceScan ((pyStrip raw).drop si) 0 0 = some ei →
      env.loads (((pyStrip raw).drop si).take ei) = none →
      rewrite_resume env fuel raw = .error (.valueError
        ("Could not parse JSON from response: ".data
          ++ (((pyStrip raw).drop si).take ei).take 200 ++ "...".data))) ∧
    (∀ t e, braceScan t 0 0 = some e →
      e ≤ t.length ∧ braceDelta (t.take e) = 0) ∧
    (∀ v, env.strictParse raw = some v → (∀ d, v ≠ JVal.dict d) →
      rewrite_resume env fuel raw = .error (.valueError
        ("Response is not a dictionary, got <class ".data
          ++ [squote] ++ jvalTypeName v ++ [squote] ++ ">".data))) ∧
    (∀ d, env.strictParse raw = some (JVal.dict d) →
      rewrite_resume env fuel raw
        = match coerceRoles fuel (dictRemove d "skills".data) with
          | .error e => .error e
          | .ok out =>
              .ok (if jvalTruthy (dictGet d "skills".data) then
                  out ++ [("skills".data, (dictGet d "skills".data).getD JVal.null)]
                else out)) ∧
    (∀ role v rest, (∀ bs, v ≠ JVal.list bs) →
      coerceRoles fuel ((role, v) :: rest)
        = .error (.valueError
            ("Bullets for role ".data ++ role ++ " is not a list".data))) ∧
    (∀ role bullets rest out, coerceRoles fuel rest = .ok out →
      coerceRoles fuel ((role, JVal.list bullets) :: rest)
        = .ok ((role, JVal.list (bullets.map
            (fun b => JVal.str (jvalReprF fuel false b)))) :: out)) := by
  refine ⟨?_, ?_, ?_, ?_, ?_, ?_, ?_, ?_⟩
  · intro h1 h2
    unfold rewrite_resume parseWithRecovery
    simp only [h1, h2]
  · intro si h1 h2 h3
    unfold rewrite_resume parseWithRecovery
    simp only [h1, h2, h3]
  · intro si ei h1 h2 h3 h4
    unfold rewrite_resume parseWithRecovery
    simp only [h1, h2, h3, h4]
  · intro t e h
    obtain ⟨-, hb, hc⟩ := braceScan_spec t 0 0 e h
    exact ⟨by simpa using hb, by simpa using hc⟩
  · intro v h1 h2
    unfold rewrite_resume parseWithRecovery
    simp only [h1]
  · intro d h1
    unfold rewrite_resume parseWithRecovery
    simp only [h1]
  · intro role v rest hv
    unfold coerceRoles
    cases v with
    | list bs => exact absurd rfl (hv bs)
    | str s => rfl
    | num n => rfl
    | bool b => rfl
    | null => rfl
    | dict d => rfl
  · intro role bullets rest out h
    unfold coerceRoles
    rw [h]

/-- Witness for `C9_json_recovery`: a braceless reply raises the
error carrying the truncated content. -/
theorem C9_json_recovery_witness :
    rewrite_resume c9Env 1 "plain text".data
      = .error (.valueError ("No JSON object found in response: ".data
        ++ (pyStrip "plain text".data).take 200 ++ "...".data)) :=
  (C9_json_recovery c9Env "plain text".data 1).1 rfl (by decide)

end JobAgent
